import Mathlib

/-!
# Verification of the Notenverwaltungssystem grade management server

A shallow embedding, in Lean 4, of the pure computational core of the
school grade-management web application: the grade aggregation functions
(`computeAverages` in `routes/student.js`, `computeWeightedAverage` in the
teacher router), the CSV field escaping (`escapeCsv`), the minimal PDF
builder (`sanitizePdfText`, `buildPdf`), the login rate limiter and the
`POST /login` control flow (`server.js`), the notification read-marking
(`POST /notifications/:id/read` together with the in-memory store's
`UPDATE grade_notifications` handler), the template statistics of
`GET /class-statistics/:classId`, and the attachment path containment
check of `GET /returns/:gradeId/attachment`.

JavaScript numbers are modelled by exact rationals `ℚ`; `NaN` is made
explicit, either as the `JsVal.nan` value or as `none` in `Option ℚ`
(the result type of the `Number(...)` coercion).  The binary floating
point representation is idealised away: arithmetic on the embedded
values is exact.  JavaScript strings are Lean `String`s; `.length` of an
ASCII-only string agrees between the two (UTF-16 code units = characters).
-/

set_option maxHeartbeats 1000000

namespace Noten

/-- A JavaScript value as it can appear in a grade row: a (non-NaN)
number, the number `NaN`, a string, `undefined` or `null`. -/
inductive JsVal where
  | num (q : ℚ)
  | nan
  | str (s : String)
  | undef
  | null
  deriving DecidableEq, Repr

/-- JavaScript truthiness of a `JsVal`: `0`, `NaN`, `""`, `undefined`
and `null` are falsy, everything else is truthy. -/
def truthy : JsVal → Bool
  | .num q => decide (q ≠ 0)
  | .nan => false
  | .str s => decide (s ≠ "")
  | .undef => false
  | .null => false

/-- The JavaScript expression `a || b`. -/
def jsOr (a b : JsVal) : JsVal := if truthy a then a else b

/-- Decimal digit run to a natural number (used by the string-to-number
coercion model). -/
def digitsToNat (l : List Char) : ℕ :=
  l.foldl (fun n c => 10 * n + (c.toNat - 48)) 0

/-- Model of `Number(s)` for a string `s`, restricted to the plain
decimal numerals that occur in this application: optional sign, integer
digits, optional fractional digits.  The empty (or all-whitespace)
string coerces to `0`; anything else that does not match yields `NaN`
(`none`). -/
def parseJsNumber (s : String) : Option ℚ :=
  let t := s.trim
  if t = "" then some 0 else
  let (sign, rest) : ℚ × List Char :=
    match t.data with
    | '-' :: r => (-1, r)
    | '+' :: r => (1, r)
    | r => (1, r)
  let intPart := rest.takeWhile (·.isDigit)
  let rem := rest.drop intPart.length
  match rem with
  | [] => if intPart.isEmpty then none else some (sign * digitsToNat intPart)
  | '.' :: fracPart =>
      if fracPart.all (·.isDigit) && !(intPart.isEmpty && fracPart.isEmpty) then
        some (sign * ((digitsToNat intPart : ℚ) +
          (digitsToNat fracPart : ℚ) / (10 ^ fracPart.length)))
      else none
  | _ => none

/-- Model of the JavaScript `Number(v)` coercion; `none` is `NaN`. -/
def toNumber : JsVal → Option ℚ
  | .num q => some q
  | .nan => none
  | .str s => parseJsNumber s
  | .undef => none
  | .null => some 0

/-- NaN-propagating addition on coerced JavaScript numbers. -/
def qAdd : Option ℚ → Option ℚ → Option ℚ
  | some a, some b => some (a + b)
  | _, _ => none

/-- NaN-propagating multiplication on coerced JavaScript numbers. -/
def qMul : Option ℚ → Option ℚ → Option ℚ
  | some a, some b => some (a * b)
  | _, _ => none

/-- Model of `Number(x.toFixed(2))` on an exact rational: the ECMAScript
rounding of `toFixed` picks the integer `n` minimising `|n / 100 - x|`
and breaks ties towards the larger `n`, i.e. `⌊100·x + 1/2⌋ / 100`. -/
def toFixed2 (q : ℚ) : ℚ := ((q * 100 + 1 / 2).floor : ℚ) / 100

theorem toFixed2_eq_intFloor (q : ℚ) : toFixed2 q = (⌊q * 100 + 1 / 2⌋ : ℚ) / 100 := rfl

/-- Rounding to 2 decimals with ties going away from zero, as the
specification describes the rounding ("round-half-away-from-zero on the
decimal representation"). -/
def roundHalfAwayFromZero2 (q : ℚ) : ℚ :=
  if 0 ≤ q then (⌊q * 100 + 1 / 2⌋ : ℚ) / 100
  else -((⌊(-q) * 100 + 1 / 2⌋ : ℚ) / 100)

/-- The result of one of the average computations: JavaScript `null`,
`NaN`, or a number. -/
inductive AvgResult where
  | null
  | nan
  | num (q : ℚ)
  deriving DecidableEq, Repr

/-- `Number((ws / wt).toFixed(2))` for a possibly-NaN weighted sum `ws`
and a nonzero total `wt` (`NaN.toFixed(2)` is `"NaN"`, which `Number`
turns back into `NaN`). -/
def avgOf (ws : Option ℚ) (wt : ℚ) : AvgResult :=
  match ws with
  | none => .nan
  | some q => .num (toFixed2 (q / wt))

/-- A row as passed to `computeAverages` (the output shape of
`mapGradeRow`): fields `value`, `weight`, `subject`. -/
structure GradeRow where
  value : JsVal
  weight : JsVal
  subject : String
  deriving DecidableEq, Repr

/-- The running state of the `grades.forEach` loop in `computeAverages`:
the overall weighted sum and total weight, and the per-subject `Map`
(modelled as an association list in insertion order; `Map.set` on an
existing key updates in place). -/
structure AggState where
  weightedSum : Option ℚ
  weightTotal : ℚ
  buckets : List (String × Option ℚ × ℚ)
  deriving Repr

/-- `subjectMap.get(s)` on the association-list model of the `Map`. -/
def bucketGet (bs : List (String × Option ℚ × ℚ)) (s : String) :
    Option (Option ℚ × ℚ) :=
  match bs with
  | [] => none
  | (s', p) :: r => if s' = s then some p else bucketGet r s

/-- `subjectMap.set(s, p)`: update in place if present, append if new. -/
def bucketSet (bs : List (String × Option ℚ × ℚ)) (s : String)
    (p : Option ℚ × ℚ) : List (String × Option ℚ × ℚ) :=
  match bs with
  | [] => [(s, p)]
  | (s', p') :: r => if s' = s then (s', p) :: r else (s', p') :: bucketSet r s p

/-- One iteration of the `grades.forEach` body of `computeAverages`
(`routes/student.js`):
`const weight = Number(grade.weight || 1);`
`if (Number.isNaN(grade.value) || Number.isNaN(weight)) return;`
then the sums and the subject bucket are updated.  Note that
`Number.isNaN` does not coerce: only the literal `NaN` value is caught,
and `grade.value * weight` coerces `grade.value` with `Number`. -/
def computeAveragesStep (st : AggState) (g : GradeRow) : AggState :=
  let weight := toNumber (jsOr g.weight (.num 1))
  if g.value = .nan ∨ weight = none then st
  else
    let w := weight.getD 0
    let contrib := qMul (toNumber g.value) (some w)
    let bucket := (bucketGet st.buckets g.subject).getD (some 0, 0)
    { weightedSum := qAdd st.weightedSum contrib
      weightTotal := st.weightTotal + w
      buckets := bucketSet st.buckets g.subject
        (qAdd bucket.1 contrib, bucket.2 + w) }

/-- The result shape of `computeAverages`: the per-subject list (in
first-occurrence order) and the overall average. -/
structure AveragesOut where
  subjects : List (String × AvgResult)
  overall : AvgResult
  deriving DecidableEq, Repr

/-- `computeAverages` from `routes/student.js` (lines 162–188). -/
def computeAverages (grades : List GradeRow) : AveragesOut :=
  let st := grades.foldl computeAveragesStep ⟨some 0, 0, []⟩
  { subjects := st.buckets.map
      (fun b => (b.1, if b.2.2 ≠ 0 then avgOf b.2.1 b.2.2 else .null))
    overall := if st.weightTotal ≠ 0 then avgOf st.weightedSum st.weightTotal
      else .null }

/-- Lookup of a subject's reported average in a `computeAverages`
result. -/
def lookupSubject (out : AveragesOut) (s : String) : Option AvgResult :=
  match out.subjects.find? (fun p => p.1 = s) with
  | some p => some p.2
  | none => none

/-- A row as passed to `computeWeightedAverage` in the teacher router:
fields `grade` and `weight`. -/
structure WRow where
  grade : JsVal
  weight : JsVal
  deriving DecidableEq, Repr

/-- One iteration of the `grades.forEach` body of
`computeWeightedAverage`:
`const value = Number(grade.grade); const weight = Number(grade.weight || 1);`
with the row skipped when either coercion is `NaN`. -/
def computeWeightedAverageStep (acc : Option ℚ × ℚ) (g : WRow) : Option ℚ × ℚ :=
  if toNumber g.grade = none ∨ toNumber (jsOr g.weight (.num 1)) = none then acc
  else (qAdd acc.1 (qMul (toNumber g.grade) (toNumber (jsOr g.weight (.num 1)))),
    acc.2 + (toNumber (jsOr g.weight (.num 1))).getD 0)

/-- `computeWeightedAverage` from the teacher router (lines 257–270). -/
def computeWeightedAverage (grades : List WRow) : AvgResult :=
  let st := grades.foldl computeWeightedAverageStep (some 0, 0)
  if st.2 ≠ 0 then avgOf st.1 st.2 else .null

/-! ## Characterisation of the aggregation folds -/

/-- The row-inclusion test of `computeAverages`: a row is processed
unless its `value` is the literal `NaN` or its defaulted weight coerces
to `NaN`. -/
def includedCA (g : GradeRow) : Bool :=
  !decide (g.value = .nan ∨ toNumber (jsOr g.weight (.num 1)) = none)

/-- The effective weight of a row: `Number(grade.weight || 1)`,
read as `0` in the (excluded) `NaN` case. -/
def rowWeight (w : JsVal) : ℚ := (toNumber (jsOr w (.num 1))).getD 0

/-- Σ of effective weights over a row list. -/
def rowsSumW (l : List GradeRow) : ℚ := (l.map (fun g => rowWeight g.weight)).sum

/-- NaN-propagating Σ of `value·weight` over a row list. -/
def rowsSumVW (l : List GradeRow) : Option ℚ :=
  l.foldr (fun g acc =>
    qAdd (qMul (toNumber g.value) (some (rowWeight g.weight))) acc) (some 0)

/-- The included rows of a given subject. -/
def subjRows (rows : List GradeRow) (s : String) : List GradeRow :=
  (rows.filter includedCA).filter (fun g => g.subject = s)

/-- How a subject bucket evolves over a batch of included rows of that
subject: an existing bucket accumulates, a missing bucket is created
exactly when the batch is nonempty. -/
def combineBucket (prev : Option (Option ℚ × ℚ)) (l : List GradeRow) :
    Option (Option ℚ × ℚ) :=
  match prev with
  | some p => some (qAdd p.1 (rowsSumVW l), p.2 + rowsSumW l)
  | none => if l.isEmpty then none else some (rowsSumVW l, rowsSumW l)

theorem qAdd_some_zero_right (x : Option ℚ) : qAdd x (some 0) = x := by
  cases x <;> simp [qAdd]

theorem qAdd_some_zero_left (x : Option ℚ) : qAdd (some 0) x = x := by
  cases x <;> simp [qAdd]

theorem qAdd_assoc (a b c : Option ℚ) : qAdd (qAdd a b) c = qAdd a (qAdd b c) := by
  cases a <;> cases b <;> cases c <;> simp [qAdd, add_assoc]

theorem qAdd_some_some (a b : ℚ) : qAdd (some a) (some b) = some (a + b) := rfl

theorem combineBucket_nil (prev : Option (Option ℚ × ℚ)) :
    combineBucket prev [] = prev := by
  cases prev with
  | none => simp [combineBucket]
  | some p => simp [combineBucket, rowsSumVW, rowsSumW, qAdd_some_zero_right]

theorem rowsSumVW_cons (g : GradeRow) (l : List GradeRow) :
    rowsSumVW (g :: l) =
      qAdd (qMul (toNumber g.value) (some (rowWeight g.weight))) (rowsSumVW l) := rfl

theorem rowsSumW_cons (g : GradeRow) (l : List GradeRow) :
    rowsSumW (g :: l) = rowWeight g.weight + rowsSumW l := by
  simp [rowsSumW]

theorem computeAveragesStep_not_included {st : AggState} {g : GradeRow}
    (h : includedCA g = false) : computeAveragesStep st g = st := by
  simp only [includedCA, Bool.not_eq_false', decide_eq_true_eq] at h
  simp only [computeAveragesStep]
  rw [if_pos h]

theorem computeAveragesStep_included {st : AggState} {g : GradeRow}
    (h : includedCA g = true) :
    computeAveragesStep st g =
      { weightedSum := qAdd st.weightedSum
          (qMul (toNumber g.value) (some (rowWeight g.weight)))
        weightTotal := st.weightTotal + rowWeight g.weight
        buckets := bucketSet st.buckets g.subject
          (qAdd ((bucketGet st.buckets g.subject).getD (some 0, 0)).1
            (qMul (toNumber g.value) (some (rowWeight g.weight))),
           ((bucketGet st.buckets g.subject).getD (some 0, 0)).2 +
             rowWeight g.weight) } := by
  simp only [includedCA, Bool.not_eq_true', decide_eq_false_iff_not] at h
  simp only [computeAveragesStep, rowWeight]
  rw [if_neg h]

theorem bucketGet_bucketSet_self (bs : List (String × Option ℚ × ℚ))
    (s : String) (p : Option ℚ × ℚ) :
    bucketGet (bucketSet bs s p) s = some p := by
  induction bs with
  | nil => simp [bucketSet, bucketGet]
  | cons b r ih =>
    by_cases h : b.1 = s
    · simp [bucketSet, bucketGet, h]
    · simp [bucketSet, bucketGet, h, ih]

theorem bucketGet_bucketSet_ne (bs : List (String × Option ℚ × ℚ))
    {t s : String} (p : Option ℚ × ℚ) (h : t ≠ s) :
    bucketGet (bucketSet bs t p) s = bucketGet bs s := by
  induction bs with
  | nil => simp only [bucketSet, bucketGet, if_neg h]
  | cons b r ih =>
    obtain ⟨a, q⟩ := b
    by_cases hb : a = t
    · have has : ¬ a = s := by rw [hb]; exact h
      simp only [bucketSet, if_pos hb, bucketGet, if_neg has]
    · simp only [bucketSet, if_neg hb, bucketGet]
      by_cases hbs : a = s
      · rw [if_pos hbs, if_pos hbs]
      · rw [if_neg hbs, if_neg hbs, ih]

/-- The central invariant of the `computeAverages` fold: the final sums
are the initial sums plus the sums over the included rows, and every
subject bucket is the initial bucket combined with the included rows of
that subject. -/
theorem foldCA_spec (rows : List GradeRow) : ∀ st : AggState,
    (rows.foldl computeAveragesStep st).weightedSum =
      qAdd st.weightedSum (rowsSumVW (rows.filter includedCA))
    ∧ (rows.foldl computeAveragesStep st).weightTotal =
      st.weightTotal + rowsSumW (rows.filter includedCA)
    ∧ ∀ s, bucketGet (rows.foldl computeAveragesStep st).buckets s =
      combineBucket (bucketGet st.buckets s) (subjRows rows s) := by
  induction rows with
  | nil =>
    intro st
    refine ⟨?_, ?_, ?_⟩
    · simp [rowsSumVW, qAdd_some_zero_right]
    · simp [rowsSumW]
    · intro s; simp [subjRows, combineBucket_nil]
  | cons g rest ih =>
    intro st
    by_cases hg : includedCA g = true
    · have hstep := @computeAveragesStep_included st _ hg
      have hfilter : (g :: rest).filter includedCA = g :: rest.filter includedCA := by
        rw [List.filter_cons, if_pos hg]
      obtain ⟨ih1, ih2, ih3⟩ := ih (computeAveragesStep st g)
      refine ⟨?_, ?_, ?_⟩
      · rw [List.foldl_cons, ih1, hstep, hfilter, rowsSumVW_cons, qAdd_assoc]
      · rw [List.foldl_cons, ih2, hstep, hfilter, rowsSumW_cons]
        simp [add_assoc]
      · intro s
        rw [List.foldl_cons, ih3 s, hstep]
        by_cases hs : g.subject = s
        · have hsub : subjRows (g :: rest) s = g :: subjRows rest s := by
            rw [subjRows, hfilter, List.filter_cons, if_pos (by simp [hs]), subjRows]
          rw [hsub]
          subst hs
          rw [bucketGet_bucketSet_self]
          cases hb : bucketGet st.buckets g.subject with
          | none =>
            simp only [hb, Option.getD_none, combineBucket, List.isEmpty_cons,
              if_false, Bool.false_eq_true]
            rw [rowsSumVW_cons, rowsSumW_cons, qAdd_some_zero_left, zero_add]
          | some p =>
            simp only [hb, Option.getD_some, combineBucket, Option.some.injEq]
            rw [rowsSumVW_cons, rowsSumW_cons, qAdd_assoc]
            simp [add_assoc]
        · have hsub : subjRows (g :: rest) s = subjRows rest s := by
            rw [subjRows, hfilter, List.filter_cons, if_neg (by simp [hs]), subjRows]
          rw [hsub, bucketGet_bucketSet_ne _ _ hs]
    · have hg' : includedCA g = false := by
        cases h : includedCA g
        · rfl
        · exact absurd h hg
      have hstep := @computeAveragesStep_not_included st _ hg'
      have hfilter : (g :: rest).filter includedCA = rest.filter includedCA := by
        rw [List.filter_cons, if_neg (by simp [hg'])]
      have hsub : ∀ s, subjRows (g :: rest) s = subjRows rest s := by
        intro s; rw [subjRows, hfilter, subjRows]
      obtain ⟨ih1, ih2, ih3⟩ := ih st
      refine ⟨?_, ?_, ?_⟩
      · rw [List.foldl_cons, hstep, ih1, hfilter]
      · rw [List.foldl_cons, hstep, ih2, hfilter]
      · intro s; rw [List.foldl_cons, hstep, ih3 s, hsub s]

theorem find_buckets_map (bs : List (String × Option ℚ × ℚ)) (s : String) :
    (match (bs.map
        (fun b => (b.1, if b.2.2 ≠ 0 then avgOf b.2.1 b.2.2 else AvgResult.null))).find?
        (fun p => p.1 = s) with
     | some p => some p.2
     | none => none) =
      (bucketGet bs s).map (fun p => if p.2 ≠ 0 then avgOf p.1 p.2 else .null) := by
  induction bs with
  | nil => rfl
  | cons b r ih =>
    obtain ⟨a, p⟩ := b
    by_cases h : a = s
    · simp [List.find?_cons, bucketGet, h]
    · simp only [List.map_cons, List.find?_cons, bucketGet, if_neg h,
        decide_eq_true_eq] at *
      simpa [h] using ih

theorem lookupSubject_computeAverages (rows : List GradeRow) (s : String) :
    lookupSubject (computeAverages rows) s =
      (bucketGet ((rows.foldl computeAveragesStep ⟨some 0, 0, []⟩).buckets) s).map
        (fun p => if p.2 ≠ 0 then avgOf p.1 p.2 else .null) := by
  simp only [lookupSubject, computeAverages]
  exact find_buckets_map _ _

/-- The row-inclusion test of `computeWeightedAverage`: both
`Number(grade.grade)` and `Number(grade.weight || 1)` must be non-NaN. -/
def includedW (g : WRow) : Bool :=
  !decide (toNumber g.grade = none ∨ toNumber (jsOr g.weight (.num 1)) = none)

/-- Σ of effective weights over a `computeWeightedAverage` row list. -/
def wRowsSumW (l : List WRow) : ℚ := (l.map (fun g => rowWeight g.weight)).sum

/-- Σ of `value·weight` over a `computeWeightedAverage` row list (the
coerced value of an included row is never `NaN`, so the sum is a plain
rational). -/
def wRowsSumVW (l : List WRow) : ℚ :=
  (l.map (fun g => (toNumber g.grade).getD 0 * rowWeight g.weight)).sum

theorem computeWeightedAverageStep_not_included {acc : Option ℚ × ℚ} {g : WRow}
    (h : includedW g = false) : computeWeightedAverageStep acc g = acc := by
  simp only [includedW, Bool.not_eq_false', decide_eq_true_eq] at h
  simp only [computeWeightedAverageStep]
  rw [if_pos h]

theorem computeWeightedAverageStep_included {acc : Option ℚ × ℚ} {g : WRow}
    (h : includedW g = true) :
    computeWeightedAverageStep acc g =
      (qAdd acc.1 (some ((toNumber g.grade).getD 0 * rowWeight g.weight)),
       acc.2 + rowWeight g.weight) := by
  simp only [includedW, Bool.not_eq_true', decide_eq_false_iff_not] at h
  push_neg at h
  obtain ⟨hv, hw⟩ := h
  cases hvv : toNumber g.grade with
  | none => exact absurd hvv hv
  | some v =>
    cases hww : toNumber (jsOr g.weight (.num 1)) with
    | none => exact absurd hww hw
    | some w =>
      simp only [computeWeightedAverageStep, hvv, hww]
      rw [if_neg (by simp)]
      simp [qMul, rowWeight, hww]

theorem foldW_spec (l : List WRow) : ∀ acc : Option ℚ × ℚ,
    l.foldl computeWeightedAverageStep acc =
    (qAdd acc.1 (some (wRowsSumVW (l.filter includedW))),
     acc.2 + wRowsSumW (l.filter includedW)) := by
  induction l with
  | nil =>
    intro acc
    simp [wRowsSumVW, wRowsSumW, qAdd_some_zero_right]
  | cons g rest ih =>
    intro acc
    by_cases hg : includedW g = true
    · have hstep := @computeWeightedAverageStep_included acc _ hg
      rw [List.foldl_cons, hstep, ih, List.filter_cons, if_pos hg]
      simp only [wRowsSumVW, wRowsSumW, List.map_cons, List.sum_cons]
      refine Prod.ext ?_ ?_
      · rw [qAdd_assoc, qAdd_some_some]
      · simp [add_assoc]
    · have hg' : includedW g = false := by
        cases h : includedW g
        · rfl
        · exact absurd h hg
      rw [List.foldl_cons, computeWeightedAverageStep_not_included hg',
        ih, List.filter_cons, if_neg (by simp [hg'])]

/-- `computeWeightedAverage` in terms of the included rows. -/
theorem computeWeightedAverage_eq (wrows : List WRow) :
    computeWeightedAverage wrows =
      if wRowsSumW (wrows.filter includedW) = 0 then .null
      else .num (toFixed2 (wRowsSumVW (wrows.filter includedW) /
        wRowsSumW (wrows.filter includedW))) := by
  unfold computeWeightedAverage
  rw [foldW_spec wrows (some 0, 0)]
  simp only [qAdd_some_zero_left, zero_add]
  by_cases h : wRowsSumW (wrows.filter includedW) = 0
  · rw [if_pos h, if_neg (by simpa using h)]
  · rw [if_neg h, if_pos h]
    rfl

/-! ## Well-formed (purely numeric) rows -/

/-- The effective weight of a well-formed numeric weight: `w || 1`
replaces a zero weight (falsy) by `1`. -/
def ew (w : ℚ) : ℚ := if w = 0 then 1 else w

/-- A well-formed grade row `(value, weight, subject)` as a
`computeAverages` input. -/
def pureRow (p : ℚ × ℚ × String) : GradeRow := ⟨.num p.1, .num p.2.1, p.2.2⟩

/-- A well-formed grade row as a `computeWeightedAverage` input. -/
def pureWRow (p : ℚ × ℚ × String) : WRow := ⟨.num p.1, .num p.2.1⟩

/-- Σ of effective weights of well-formed rows. -/
def pureSumW (l : List (ℚ × ℚ × String)) : ℚ := (l.map (fun p => ew p.2.1)).sum

/-- Σ of `value · effective weight` of well-formed rows. -/
def pureSumVW (l : List (ℚ × ℚ × String)) : ℚ :=
  (l.map (fun p => p.1 * ew p.2.1)).sum

theorem toNumber_jsOr_num (w : ℚ) :
    toNumber (jsOr (.num w) (.num 1)) = some (ew w) := by
  by_cases h : w = 0
  · simp [jsOr, truthy, toNumber, ew, h]
  · simp [jsOr, truthy, toNumber, ew, h]

theorem rowWeight_num (w : ℚ) : rowWeight (.num w) = ew w := by
  simp [rowWeight, toNumber_jsOr_num]

theorem toNumber_num (q : ℚ) : toNumber (.num q) = some q := rfl

theorem includedCA_pureRow (p : ℚ × ℚ × String) : includedCA (pureRow p) = true := by
  simp [includedCA, pureRow, toNumber_jsOr_num]

theorem includedW_pureWRow (p : ℚ × ℚ × String) : includedW (pureWRow p) = true := by
  simp [includedW, pureWRow, toNumber_num, toNumber_jsOr_num]

theorem filter_includedCA_pure (l : List (ℚ × ℚ × String)) :
    (l.map pureRow).filter includedCA = l.map pureRow := by
  apply List.filter_eq_self.mpr
  intro g hg
  obtain ⟨p, _, rfl⟩ := List.mem_map.mp hg
  exact includedCA_pureRow p

theorem filter_includedW_pure (l : List (ℚ × ℚ × String)) :
    (l.map pureWRow).filter includedW = l.map pureWRow := by
  apply List.filter_eq_self.mpr
  intro g hg
  obtain ⟨p, _, rfl⟩ := List.mem_map.mp hg
  exact includedW_pureWRow p

theorem rowsSumW_pure (l : List (ℚ × ℚ × String)) :
    rowsSumW (l.map pureRow) = pureSumW l := by
  induction l with
  | nil => rfl
  | cons p rest ih =>
    simp only [List.map_cons, rowsSumW_cons, pureSumW, List.sum_cons] at *
    rw [ih]
    simp [pureRow, rowWeight_num, pureSumW]

theorem rowsSumVW_pure (l : List (ℚ × ℚ × String)) :
    rowsSumVW (l.map pureRow) = some (pureSumVW l) := by
  induction l with
  | nil => rfl
  | cons p rest ih =>
    simp only [List.map_cons, rowsSumVW_cons, ih]
    simp [pureRow, rowWeight_num, toNumber, qMul, qAdd, pureSumVW]

theorem wRowsSumW_pure (l : List (ℚ × ℚ × String)) :
    wRowsSumW (l.map pureWRow) = pureSumW l := by
  induction l with
  | nil => rfl
  | cons p rest ih =>
    simp only [List.map_cons, wRowsSumW, pureSumW, List.sum_cons] at *
    rw [ih]
    simp [pureWRow, rowWeight_num]

theorem wRowsSumVW_pure (l : List (ℚ × ℚ × String)) :
    wRowsSumVW (l.map pureWRow) = pureSumVW l := by
  induction l with
  | nil => rfl
  | cons p rest ih =>
    simp only [List.map_cons, wRowsSumVW, pureSumVW, List.sum_cons] at *
    rw [ih]
    simp [pureWRow, rowWeight_num, toNumber_num]

theorem subjRows_pure (l : List (ℚ × ℚ × String)) (s : String) :
    subjRows (l.map pureRow) s = (l.filter (fun p => p.2.2 = s)).map pureRow := by
  rw [subjRows, filter_includedCA_pure]
  induction l with
  | nil => rfl
  | cons p rest ih =>
    by_cases h : p.2.2 = s
    · simp only [List.map_cons, List.filter_cons]
      rw [if_pos (by simp [pureRow, h]), if_pos (by simp [h]), List.map_cons, ih]
    · simp only [List.map_cons, List.filter_cons]
      rw [if_neg (by simp [pureRow, h]), if_neg (by simp [h]), ih]

/-- The overall result of `computeAverages` in terms of the included
rows. -/
theorem computeAverages_overall_eq (rows : List GradeRow) :
    (computeAverages rows).overall =
      if rowsSumW (rows.filter includedCA) = 0 then .null
      else avgOf (rowsSumVW (rows.filter includedCA))
        (rowsSumW (rows.filter includedCA)) := by
  obtain ⟨h1, h2, _⟩ := foldCA_spec rows ⟨some 0, 0, []⟩
  simp only [computeAverages]
  rw [h1, h2, qAdd_some_zero_left, zero_add]
  by_cases h : rowsSumW (rows.filter includedCA) = 0
  · rw [if_pos h, if_neg (by simpa using h)]
  · rw [if_neg h, if_pos h]

/-- The per-subject results of `computeAverages` in terms of the
included rows of each subject. -/
theorem computeAverages_subject_eq (rows : List GradeRow) (s : String) :
    lookupSubject (computeAverages rows) s =
      if (subjRows rows s).isEmpty then none
      else some (if rowsSumW (subjRows rows s) = 0 then .null
        else avgOf (rowsSumVW (subjRows rows s)) (rowsSumW (subjRows rows s))) := by
  obtain ⟨_, _, h3⟩ := foldCA_spec rows ⟨some 0, 0, []⟩
  rw [lookupSubject_computeAverages, h3 s]
  rw [show bucketGet (AggState.mk (some 0) 0 []).buckets s = none from rfl]
  simp only [combineBucket]
  by_cases he : (subjRows rows s).isEmpty
  · rw [if_pos he, if_pos he]
    rfl
  · rw [if_neg he, if_neg he]
    simp only [Option.map_some']
    by_cases h : rowsSumW (subjRows rows s) = 0
    · rw [if_pos h, if_neg (by simpa using h)]
    · rw [if_neg h, if_pos h]

/-- Helper: the full behaviour of both aggregation functions on
well-formed numeric rows, with the `w || 1` weight defaulting made
explicit. -/
theorem computeAverages_pure_spec (prows : List (ℚ × ℚ × String)) :
    ((computeAverages (prows.map pureRow)).overall =
      if pureSumW prows = 0 then .null
      else .num (toFixed2 (pureSumVW prows / pureSumW prows)))
    ∧ (∀ s : String,
        lookupSubject (computeAverages (prows.map pureRow)) s =
          if (prows.filter (fun p => p.2.2 = s)).isEmpty then none
          else if pureSumW (prows.filter (fun p => p.2.2 = s)) = 0 then some .null
          else some (.num (toFixed2 (pureSumVW (prows.filter (fun p => p.2.2 = s)) /
            pureSumW (prows.filter (fun p => p.2.2 = s))))))
    ∧ (computeWeightedAverage (prows.map pureWRow) =
      if pureSumW prows = 0 then .null
      else .num (toFixed2 (pureSumVW prows / pureSumW prows))) := by
  refine ⟨?_, ?_, ?_⟩
  · rw [computeAverages_overall_eq, filter_includedCA_pure, rowsSumW_pure,
      rowsSumVW_pure]
    by_cases h : pureSumW prows = 0
    · rw [if_pos h, if_pos h]
    · rw [if_neg h, if_neg h]
      rfl
  · intro s
    rw [computeAverages_subject_eq, subjRows_pure, rowsSumW_pure, rowsSumVW_pure]
    have hmap : ∀ l : List (ℚ × ℚ × String), (l.map pureRow).isEmpty = l.isEmpty := by
      intro l; cases l <;> rfl
    by_cases he : (prows.filter (fun p => p.2.2 = s)).isEmpty
    · rw [if_pos (by rw [hmap]; exact he), if_pos he]
    · rw [if_neg (by rw [hmap]; exact he), if_neg he]
      by_cases h : pureSumW (prows.filter (fun p => p.2.2 = s)) = 0
      · rw [if_pos h, if_pos h]
      · rw [if_neg h, if_neg h]
        rfl
  · rw [computeWeightedAverage_eq, filter_includedW_pure, wRowsSumW_pure,
      wRowsSumVW_pure]

/-- Helper: on non-negative values the `toFixed` rounding coincides with
round-half-away-from-zero. -/
theorem toFixed2_nonneg_eq_roundHalfAway {q : ℚ} (h : 0 ≤ q) :
    toFixed2 q = roundHalfAwayFromZero2 q := by
  rw [toFixed2_eq_intFloor, roundHalfAwayFromZero2, if_pos h]

/-- **C1** (corrected claim): the `grade.weight || 1` defaulting turns a
zero (or absent) weight into `1`, so for well-formed numeric rows the
per-subject and overall weighted averages equal
`Σ(value·w') / Σ(w')` with `w' = (w = 0 ? 1 : w)`, rounded to 2 decimal
places (round-half-away-from-zero for the non-negative averages of this
application); the returned average is `null` exactly when `Σ(w')` is
zero, which holds for the empty input but not for an all-zero-weight
input (such an input yields the unweighted mean instead). -/
theorem computeAverages_wellformed (prows : List (ℚ × ℚ × String)) :
    ((computeAverages (prows.map pureRow)).overall =
      if pureSumW prows = 0 then .null
      else .num (toFixed2 (pureSumVW prows / pureSumW prows)))
    ∧ (∀ s : String,
        lookupSubject (computeAverages (prows.map pureRow)) s =
          if (prows.filter (fun p => p.2.2 = s)).isEmpty then none
          else if pureSumW (prows.filter (fun p => p.2.2 = s)) = 0 then some .null
          else some (.num (toFixed2 (pureSumVW (prows.filter (fun p => p.2.2 = s)) /
            pureSumW (prows.filter (fun p => p.2.2 = s))))))
    ∧ (computeWeightedAverage (prows.map pureWRow) =
      if pureSumW prows = 0 then .null
      else .num (toFixed2 (pureSumVW prows / pureSumW prows)))
    ∧ (∀ q : ℚ, 0 ≤ q → toFixed2 q = roundHalfAwayFromZero2 q) := by
  obtain ⟨h1, h2, h3⟩ := computeAverages_pure_spec prows
  exact ⟨h1, h2, h3, fun q hq => toFixed2_nonneg_eq_roundHalfAway hq⟩

/-- **C1** witness: the spec's own example
`[{value:1.5, weight:40, subject:"Math"}, {value:3, weight:60, subject:"Math"}]`
has overall average `2.40`, and the rounding agrees with
round-half-away-from-zero there. -/
theorem computeAverages_wellformed_witness :
    (computeAverages ([((3 : ℚ)/2, (40 : ℚ), "Math"),
        ((3 : ℚ), (60 : ℚ), "Math")].map pureRow)).overall =
      .num (12/5)
    ∧ (0 : ℚ) ≤ 12/5 ∧ toFixed2 (12/5) = roundHalfAwayFromZero2 (12/5) := by
  have h := computeAverages_wellformed [((3 : ℚ)/2, 40, "Math"), (3, 60, "Math")]
  refine ⟨?_, by norm_num, h.2.2.2 (12/5) (by norm_num)⟩
  rw [h.1]
  have hw : pureSumW [((3 : ℚ)/2, 40, "Math"), (3, 60, "Math")] = 100 := by
    norm_num [pureSumW, ew]
  have hv : pureSumVW [((3 : ℚ)/2, 40, "Math"), (3, 60, "Math")] = 240 := by
    norm_num [pureSumVW, ew]
  rw [hw, hv, if_neg (by norm_num), toFixed2_eq_intFloor]
  norm_num

/-- **C1** counterexample: a single well-formed row with weight `0` —
the claim demands a `null` average for an all-zero-weight input, but
both aggregation functions return the value `2` itself (the zero weight
is replaced by `1` by `grade.weight || 1`). -/
theorem computeAverages_zero_weight_cex :
    (computeAverages [⟨.num 2, .num 0, "Mathe"⟩]).overall = .num 2
    ∧ computeWeightedAverage [⟨.num 2, .num 0⟩] = .num 2
    ∧ AvgResult.num 2 ≠ .null := by
  have h := computeAverages_pure_spec [((2 : ℚ), (0 : ℚ), "Mathe")]
  have hw : pureSumW [((2 : ℚ), (0 : ℚ), "Mathe")] = 1 := by
    norm_num [pureSumW, ew]
  have hv : pureSumVW [((2 : ℚ), (0 : ℚ), "Mathe")] = 2 := by
    norm_num [pureSumVW, ew]
  refine ⟨?_, ?_, by simp⟩
  · have h1 := h.1
    rw [hw, hv, if_neg (by norm_num), toFixed2_eq_intFloor] at h1
    rw [show [GradeRow.mk (.num 2) (.num 0) "Mathe"] =
      [((2 : ℚ), (0 : ℚ), "Mathe")].map pureRow from rfl, h1]
    norm_num
  · have h3 := h.2.2
    rw [hw, hv, if_neg (by norm_num), toFixed2_eq_intFloor] at h3
    rw [show [WRow.mk (.num 2) (.num 0)] =
      [((2 : ℚ), (0 : ℚ), "Mathe")].map pureWRow from rfl, h3]
    norm_num

/-- **C2** (corrected claim): a row is excluded from both the numerator
and the denominator exactly when — for `computeWeightedAverage` — its
coerced value or its defaulted coerced weight is `NaN`, and — for
`computeAverages` — its `value` field is the literal `NaN` or its
defaulted coerced weight is `NaN`.  An absent (or otherwise falsy)
weight is not excluded: it is included with weight `1`.  In
`computeAverages` an absent or non-numeric-string value is not excluded
either: its weight still enters the denominator and the affected
averages become `NaN`.  Both functions are total (they never throw). -/
theorem aggregation_inclusion (rows : List GradeRow) (wrows : List WRow) :
    ((computeAverages rows).overall =
      if rowsSumW (rows.filter includedCA) = 0 then .null
      else avgOf (rowsSumVW (rows.filter includedCA))
        (rowsSumW (rows.filter includedCA)))
    ∧ (∀ s, lookupSubject (computeAverages rows) s =
        if (subjRows rows s).isEmpty then none
        else some (if rowsSumW (subjRows rows s) = 0 then .null
          else avgOf (rowsSumVW (subjRows rows s)) (rowsSumW (subjRows rows s))))
    ∧ (computeWeightedAverage wrows =
        if wRowsSumW (wrows.filter includedW) = 0 then .null
        else .num (toFixed2 (wRowsSumVW (wrows.filter includedW) /
          wRowsSumW (wrows.filter includedW))))
    ∧ (∀ g : GradeRow, includedCA g =
        !decide (g.value = .nan ∨ toNumber (jsOr g.weight (.num 1)) = none))
    ∧ (∀ g : WRow, includedW g =
        !decide (toNumber g.grade = none ∨ toNumber (jsOr g.weight (.num 1)) = none)) :=
  ⟨computeAverages_overall_eq rows,
   computeAverages_subject_eq rows,
   computeWeightedAverage_eq wrows,
   fun _ => rfl, fun _ => rfl⟩

/-- **C2** counterexample: a row with an absent (`undefined`) weight is
not excluded — `computeWeightedAverage` returns `3` where the claim
demands exclusion of the row (hence a `null` average); and a row with an
absent value poisons `computeAverages`: the result is `NaN` instead of
the claimed average `3` over the remaining rows. -/
theorem aggregation_inclusion_cex :
    computeWeightedAverage [⟨.num 3, .undef⟩] = .num 3
    ∧ (computeAverages [⟨.num 3, .num 1, "Mathe"⟩, ⟨.undef, .num 1, "Mathe"⟩]).overall
        = .nan
    ∧ AvgResult.num 3 ≠ .null ∧ AvgResult.nan ≠ .null
    ∧ AvgResult.nan ≠ .num 3 := by
  have hw1 : rowWeight JsVal.undef = 1 := by
    simp [rowWeight, jsOr, truthy, toNumber]
  refine ⟨?_, ?_, by simp, by simp, by simp⟩
  · rw [computeWeightedAverage_eq]
    have hi : includedW ⟨.num 3, .undef⟩ = true := by
      simp [includedW, toNumber, jsOr, truthy]
    rw [List.filter_cons, if_pos hi]
    simp only [List.filter_nil, wRowsSumW, wRowsSumVW, List.map_cons, List.map_nil,
      List.sum_cons, List.sum_nil, hw1, toNumber, Option.getD_some]
    rw [toFixed2_eq_intFloor]
    norm_num
  · rw [computeAverages_overall_eq]
    have hi1 : includedCA ⟨.num 3, .num 1, "Mathe"⟩ = true := by
      simp [includedCA, toNumber_jsOr_num]
    have hi2 : includedCA ⟨.undef, .num 1, "Mathe"⟩ = true := by
      simp [includedCA, toNumber_jsOr_num]
    rw [List.filter_cons, if_pos hi1, List.filter_cons, if_pos hi2]
    have hsw : rowsSumW [GradeRow.mk (.num 3) (.num 1) "Mathe",
        GradeRow.mk .undef (.num 1) "Mathe"] = 2 := by
      norm_num [rowsSumW, rowWeight_num, ew]
    have hsv : rowsSumVW [GradeRow.mk (.num 3) (.num 1) "Mathe",
        GradeRow.mk .undef (.num 1) "Mathe"] = none := by
      simp [rowsSumVW, toNumber, qMul, qAdd]
    rw [List.filter_nil, hsw, hsv, if_neg (by norm_num)]
    rfl

/-! ## CSV field escaping (`escapeCsv`, routes/student.js 206–213) -/

/-- The single-quote character `'` used as the formula-injection
guard prefix. -/
def singleQuote : String := String.mk [Char.ofNat 39]

/-- The character class of the guard regex `/^[=+\-@\t\r]/`. -/
def csvGuardChar (c : Char) : Bool :=
  c = '=' || c = '+' || c = '-' || c = '@' || c = '\t' || c = '\r'

/-- `/^[=+\-@\t\r]/.test(s)`: does the first character match? -/
def csvNeedsGuard (s : String) : Bool :=
  match s.data with
  | [] => false
  | c :: _ => csvGuardChar c

/-- The character class of the quoting regex `/[",\n]/`. -/
def csvSpecialChar (c : Char) : Bool := c = '"' || c = ',' || c = '\n'

/-- `/[",\n]/.test(s)`. -/
def csvNeedsQuote (s : String) : Bool := s.data.any csvSpecialChar

/-- `s.replace(/"/g, '""')`: double every double quote. -/
def dupQuotes (s : String) : String :=
  String.mk (s.data.flatMap (fun c => if c = '"' then ['"', '"'] else [c]))

/-- `escapeCsv` from `routes/student.js` (operating on the field already
coerced to a string by `String(value)`). -/
def escapeCsv (s : String) : String :=
  let guarded := if csvNeedsGuard s then singleQuote ++ s else s
  if csvNeedsQuote guarded then "\"" ++ dupQuotes guarded ++ "\"" else guarded

/-- The escaping rule exactly as the specification words it: first
prefix a single quote exactly when the first character is one of
`= + - @ <tab> <CR>`, then wrap the (possibly prefixed) field in double
quotes with internal double quotes doubled exactly when the field
contains a comma, a double quote, or a newline. -/
def escapeCsvSpec (s : String) : String :=
  let prefixed :=
    if (match s.data with
        | [] => false
        | c :: _ => decide (c = '=' ∨ c = '+' ∨ c = '-' ∨ c = '@' ∨ c = '\t' ∨ c = '\r'))
    then singleQuote ++ s else s
  if s.data.any (fun c => decide (c = ',' ∨ c = '"' ∨ c = '\n'))
  then "\"" ++ dupQuotes prefixed ++ "\"" else prefixed

theorem csvGuardChar_eq_spec (c : Char) :
    csvGuardChar c =
      decide (c = '=' ∨ c = '+' ∨ c = '-' ∨ c = '@' ∨ c = '\t' ∨ c = '\r') := by
  simp [csvGuardChar, Bool.decide_or, Bool.or_assoc]

theorem csvSpecialChar_eq_spec (c : Char) :
    csvSpecialChar c = decide (c = ',' ∨ c = '"' ∨ c = '\n') := by
  simp only [csvSpecialChar, Bool.decide_or, decide_eq_true_eq]
  by_cases h1 : c = '"' <;> by_cases h2 : c = ',' <;> simp [h1, h2]

theorem csvNeedsQuote_singleQuote_append (s : String) :
    csvNeedsQuote (singleQuote ++ s) = csvNeedsQuote s := by
  have : (singleQuote ++ s).data = Char.ofNat 39 :: s.data := by
    simp [singleQuote, String.data_append]
  simp only [csvNeedsQuote, this, List.any_cons]
  have : csvSpecialChar (Char.ofNat 39) = false := by decide
  simp [this]

/-- **C3** (confirmed): `escapeCsv` behaves exactly as the claim
describes — guard prefix exactly for a leading `= + - @ <tab> <CR>`,
quote-wrapping with doubled internal quotes exactly when a comma,
double quote or newline occurs, and a field matching neither rule is
emitted unchanged. -/
theorem escapeCsv_spec (s : String) :
    escapeCsv s = escapeCsvSpec s
    ∧ (csvNeedsGuard s = false → csvNeedsQuote s = false → escapeCsv s = s) := by
  have hg : (match s.data with
      | [] => false
      | c :: _ => decide (c = '=' ∨ c = '+' ∨ c = '-' ∨ c = '@' ∨ c = '\t' ∨ c = '\r')) =
      csvNeedsGuard s := by
    simp only [csvNeedsGuard]
    cases s.data with
    | nil => rfl
    | cons c r => exact (csvGuardChar_eq_spec c).symm
  have hq : ∀ t : String,
      (t.data.any (fun c => decide (c = ',' ∨ c = '"' ∨ c = '\n'))) = csvNeedsQuote t := by
    intro t
    simp only [csvNeedsQuote]
    induction t.data with
    | nil => rfl
    | cons c r ih => simp only [List.any_cons, ih, csvSpecialChar_eq_spec]
  constructor
  · simp only [escapeCsv, escapeCsvSpec, hg, hq]
    cases hguard : csvNeedsGuard s
    · simp only [Bool.false_eq_true, if_false]
    · simp only [if_true, csvNeedsQuote_singleQuote_append]
  · intro h1 h2
    simp only [escapeCsv, h1, h2, Bool.false_eq_true, if_false]

/-- **C3** witness: a plain field is unchanged, a `=`-leading field is
guarded, and a comma-containing field is quoted, all per the claim. -/
theorem escapeCsv_spec_witness :
    escapeCsv "Mathe" = escapeCsvSpec "Mathe"
    ∧ csvNeedsGuard "Mathe" = false ∧ csvNeedsQuote "Mathe" = false
    ∧ escapeCsv "Mathe" = "Mathe" := by
  have h := escapeCsv_spec "Mathe"
  have h1 : csvNeedsGuard "Mathe" = false := by decide
  have h2 : csvNeedsQuote "Mathe" = false := by decide
  exact ⟨h.1, h1, h2, h.2 h1 h2⟩

/-! ## Notification read-marking (C7) -/

/-- A `grade_notifications` row of the in-memory store
(`db.js`): timestamps are modelled as naturals. -/
structure Notification where
  id : ℕ
  student_id : ℕ
  message : String
  type : String
  created_at : ℕ
  read_at : Option ℕ
  deriving DecidableEq, Repr

/-- The fake store's handler for
`UPDATE grade_notifications SET read_at = current_timestamp
WHERE id = ? AND student_id = ?` (db.js lines 270–274):
`notifications.find(...)` yields the first matching row and its
`read_at` is assigned the current time — unconditionally, with no
`read_at IS NULL` guard. -/
def markNotificationRead (notifs : List Notification) (id sid now : ℕ) :
    List Notification :=
  match notifs with
  | [] => []
  | n :: rest =>
      if n.id = id ∧ n.student_id = sid then { n with read_at := some now } :: rest
      else n :: markNotificationRead rest id sid now

/-- **C7** (corrected claim): marking never reverts `read_at` to null —
every row of the updated list keeps its old `read_at` or carries
`some now` — but `read_at` is not set-once: re-marking a matched row
overwrites `read_at` with the current timestamp even when it was
already set. -/
theorem markNotificationRead_props (notifs : List Notification) (id sid now : ℕ) :
    List.Forall₂
      (fun old new => new.read_at = old.read_at ∨ new.read_at = some now)
      notifs (markNotificationRead notifs id sid now)
    ∧ (∀ (n : Notification) (rest : List Notification),
        n.id = id → n.student_id = sid →
        markNotificationRead (n :: rest) id sid now =
          { n with read_at := some now } :: rest) := by
  constructor
  · induction notifs with
    | nil => exact List.Forall₂.nil
    | cons n rest ih =>
      by_cases h : n.id = id ∧ n.student_id = sid
      · rw [markNotificationRead, if_pos h]
        exact List.Forall₂.cons (Or.inr rfl)
          ((List.forall₂_same).mpr (fun x _ => Or.inl rfl))
      · rw [markNotificationRead, if_neg h]
        exact List.Forall₂.cons (Or.inl rfl) ih
  · intro n rest h1 h2
    rw [markNotificationRead, if_pos ⟨h1, h2⟩]

/-- **C7** witness: marking an unread notification sets its `read_at`. -/
theorem markNotificationRead_props_witness :
    markNotificationRead [⟨1, 1, "Neue Note", "info", 0, none⟩] 1 1 9 =
      [⟨1, 1, "Neue Note", "info", 0, some 9⟩] :=
  (markNotificationRead_props [⟨1, 1, "Neue Note", "info", 0, none⟩] 1 1 9).2
    ⟨1, 1, "Neue Note", "info", 0, none⟩ [] rfl rfl

/-- **C7** counterexample: re-marking an already-read notification
(read at time 5) at time 9 changes its `read_at` to 9 — `read_at` is
not set-at-most-once. -/
theorem markNotificationRead_overwrite_cex :
    markNotificationRead [⟨1, 1, "Neue Note", "info", 0, some 5⟩] 1 1 9 =
      [⟨1, 1, "Neue Note", "info", 0, some 9⟩]
    ∧ some (9 : ℕ) ≠ some (5 : ℕ) := by
  refine ⟨?_, by simp⟩
  rw [markNotificationRead, if_pos ⟨rfl, rfl⟩]

/-! ## Login rate limiter and `POST /login` control flow (server.js) -/

/-- An entry of the `loginAttempts` map: failure count, time of first
attempt in the current window, lockout deadline (`0` = not locked). -/
structure AttemptEntry where
  count : ℕ
  firstAttemptAt : ℕ
  lockedUntil : ℕ
  deriving DecidableEq, Repr

/-- The process-wide `loginAttempts` `Map`, keyed by
`"<ip>|<lowercased email>"`, modelled as an association list. -/
def Limiter := List (String × AttemptEntry)

/-- `loginAttempts.get(k)`. -/
def mget (st : Limiter) (k : String) : Option AttemptEntry :=
  match st with
  | [] => none
  | (k', e) :: r => if k' = k then some e else mget r k

/-- `loginAttempts.set(k, e)`. -/
def mset (st : Limiter) (k : String) (e : AttemptEntry) : Limiter :=
  match st with
  | [] => [(k, e)]
  | (k', e') :: r => if k' = k then (k', e) :: r else (k', e') :: mset r k e

/-- `loginAttempts.delete(k)`.  A JavaScript `Map` holds each key at
most once, so removing every binding of `k` from the association-list
model is the faithful translation. -/
def mdel (st : Limiter) (k : String) : Limiter :=
  match st with
  | [] => []
  | (k', e') :: r => if k' = k then mdel r k else (k', e') :: mdel r k

/-- `isLoginRateLimited(key)` (server.js lines 57–67).  The check also
mutates the map (it deletes an expired entry), so the model returns the
updated map alongside the verdict.  `entry.lockedUntil && entry.lockedUntil > now`
collapses to `lockedUntil > now` because `0 > now` is false anyway.
Times are naturals; `now - entry.firstAttemptAt > windowMs` matches the
JavaScript arithmetic whenever the clock is monotone (for `now <`
`firstAttemptAt` JavaScript's negative difference and truncated natural
subtraction both fail the `> windowMs` test). -/
def isLoginRateLimited (windowMs maxAttempts : ℕ) (now : ℕ) (st : Limiter)
    (k : String) : Bool × Limiter :=
  match mget st k with
  | none => (false, st)
  | some e =>
      if e.lockedUntil > now then (true, st)
      else if now - e.firstAttemptAt > windowMs then (false, mdel st k)
      else (decide (e.count ≥ maxAttempts), st)

/-- `recordLoginFailure(key)` (server.js lines 69–80). -/
def recordLoginFailure (windowMs maxAttempts : ℕ) (now : ℕ) (st : Limiter)
    (k : String) : Limiter :=
  match mget st k with
  | none => mset st k ⟨1, now, 0⟩
  | some e =>
      if now - e.firstAttemptAt > windowMs then mset st k ⟨1, now, 0⟩
      else
        let c := e.count + 1
        mset st k ⟨c, e.firstAttemptAt,
          if c ≥ maxAttempts then now + windowMs else e.lockedUntil⟩

/-- `resetLoginAttempts(key)` (server.js lines 82–84). -/
def resetLoginAttempts (st : Limiter) (k : String) : Limiter := mdel st k

/-- The stored user row fields consulted by the login handler.
`pwOk` abstracts `verifyPassword(user.password_hash, password)`. -/
structure UserRow where
  status : String
  must_change_password : Bool
  deriving DecidableEq, Repr

/-- The observable outcome of one `POST /login` request. -/
inductive LoginResult where
  | rateLimited
  | badRequest
  | invalid
  | success
  deriving DecidableEq, Repr

/-- The HTTP status the handler responds with. -/
def LoginResult.httpStatus : LoginResult → ℕ
  | .rateLimited => 429
  | .badRequest => 400
  | .invalid => 401
  | .success => 302

/-- The error message rendered into the login view (empty on the
redirecting success path). -/
def LoginResult.message : LoginResult → String
  | .rateLimited => "Zu viele Versuche. Bitte spaeter erneut versuchen."
  | .badRequest => "Bitte E-Mail und Passwort eingeben."
  | .invalid => "Login fehlgeschlagen."
  | .success => ""

/-- The `POST /login` handler control flow (server.js lines 243–317):
rate-limit check first (independently of credentials), then the
missing-field check, then the user lookup / password verification, then
the `status !== "active"` check — the last two failing with the same
generic response — and finally the success path, which resets the
limiter entry.  `user` is the row found for the submitted email
(`none` = unknown email), `pwOk` the password verification outcome. -/
def loginStep (windowMs maxAttempts : ℕ) (now : ℕ) (st : Limiter) (k : String)
    (emailPresent passwordPresent : Bool) (user : Option UserRow) (pwOk : Bool) :
    LoginResult × Limiter :=
  let checked := isLoginRateLimited windowMs maxAttempts now st k
  if checked.1 then (.rateLimited, checked.2)
  else if !emailPresent || !passwordPresent then
    (.badRequest, recordLoginFailure windowMs maxAttempts now checked.2 k)
  else
    match user with
    | none => (.invalid, recordLoginFailure windowMs maxAttempts now checked.2 k)
    | some u =>
        if !pwOk then
          (.invalid, recordLoginFailure windowMs maxAttempts now checked.2 k)
        else if u.status ≠ "active" then
          (.invalid, recordLoginFailure windowMs maxAttempts now checked.2 k)
        else (.success, resetLoginAttempts checked.2 k)

theorem mget_mset_self (st : Limiter) (k : String) (e : AttemptEntry) :
    mget (mset st k e) k = some e := by
  induction st with
  | nil => simp [mset, mget]
  | cons b r ih =>
    obtain ⟨k', e'⟩ := b
    by_cases h : k' = k
    · simp [mset, mget, h]
    · simp [mset, mget, h, ih]

theorem mget_mdel_self (st : Limiter) (k : String) :
    mget (mdel st k) k = none := by
  induction st with
  | nil => rfl
  | cons b r ih =>
    obtain ⟨k', e'⟩ := b
    by_cases h : k' = k
    · simp [mdel, h, ih]
    · simp [mdel, mget, h, ih]

/-- Five consecutive `recordLoginFailure` calls for the same key. -/
def fiveFailures (W : ℕ) (k : String) (st0 : Limiter) (t1 t2 t3 t4 t5 : ℕ) :
    Limiter :=
  recordLoginFailure W 5 t5 (recordLoginFailure W 5 t4 (recordLoginFailure W 5 t3
    (recordLoginFailure W 5 t2 (recordLoginFailure W 5 t1 st0 k) k) k) k) k

theorem fiveFailures_entry (W : ℕ) (k : String) (st0 : Limiter)
    (t1 t2 t3 t4 t5 : ℕ) (h0 : mget st0 k = none)
    (h12 : t1 ≤ t2) (h23 : t2 ≤ t3) (h34 : t3 ≤ t4) (h45 : t4 ≤ t5)
    (h5w : t5 ≤ t1 + W) :
    mget (fiveFailures W k st0 t1 t2 t3 t4 t5) k = some ⟨5, t1, t5 + W⟩ := by
  have e1 : recordLoginFailure W 5 t1 st0 k = mset st0 k ⟨1, t1, 0⟩ := by
    simp [recordLoginFailure, h0]
  have m1 := mget_mset_self st0 k ⟨1, t1, 0⟩
  have e2 : recordLoginFailure W 5 t2 (mset st0 k ⟨1, t1, 0⟩) k =
      mset (mset st0 k ⟨1, t1, 0⟩) k ⟨2, t1, 0⟩ := by
    simp only [recordLoginFailure, m1]
    rw [if_neg (by omega)]
    norm_num
  have m2 := mget_mset_self (mset st0 k ⟨1, t1, 0⟩) k ⟨2, t1, 0⟩
  have e3 : recordLoginFailure W 5 t3 (mset (mset st0 k ⟨1, t1, 0⟩) k ⟨2, t1, 0⟩) k =
      mset (mset (mset st0 k ⟨1, t1, 0⟩) k ⟨2, t1, 0⟩) k ⟨3, t1, 0⟩ := by
    simp only [recordLoginFailure, m2]
    rw [if_neg (by omega)]
    norm_num
  have m3 := mget_mset_self (mset (mset st0 k ⟨1, t1, 0⟩) k ⟨2, t1, 0⟩) k ⟨3, t1, 0⟩
  have e4 : recordLoginFailure W 5 t4
      (mset (mset (mset st0 k ⟨1, t1, 0⟩) k ⟨2, t1, 0⟩) k ⟨3, t1, 0⟩) k =
      mset (mset (mset (mset st0 k ⟨1, t1, 0⟩) k ⟨2, t1, 0⟩) k ⟨3, t1, 0⟩) k
        ⟨4, t1, 0⟩ := by
    simp only [recordLoginFailure, m3]
    rw [if_neg (by omega)]
    norm_num
  have m4 := mget_mset_self
    (mset (mset (mset st0 k ⟨1, t1, 0⟩) k ⟨2, t1, 0⟩) k ⟨3, t1, 0⟩) k ⟨4, t1, 0⟩
  have e5 : recordLoginFailure W 5 t5
      (mset (mset (mset (mset st0 k ⟨1, t1, 0⟩) k ⟨2, t1, 0⟩) k ⟨3, t1, 0⟩) k
        ⟨4, t1, 0⟩) k =
      mset (mset (mset (mset (mset st0 k ⟨1, t1, 0⟩) k ⟨2, t1, 0⟩) k ⟨3, t1, 0⟩) k
        ⟨4, t1, 0⟩) k ⟨5, t1, t5 + W⟩ := by
    simp only [recordLoginFailure, m4]
    rw [if_neg (by omega)]
    norm_num
  rw [fiveFailures, e1, e2, e3, e4, e5]
  exact mget_mset_self _ k _

/-- **C5** (confirmed): after 5 failed attempts for a key within the
window (monotone clock, all within `t1 + W`), a 6th attempt before the
lockout deadline `t5 + W` is reported rate-limited and the login handler
answers `rateLimited` regardless of the submitted credentials; a
successful login deletes the key's entry, and a subsequent failure
starts a fresh entry with count 1. -/
theorem login_rate_limit_lockout :
    (∀ (W : ℕ) (k : String) (st0 : Limiter) (t1 t2 t3 t4 t5 t6 : ℕ)
      (emailPresent passwordPresent : Bool) (user : Option UserRow) (pwOk : Bool),
      mget st0 k = none →
      t1 ≤ t2 → t2 ≤ t3 → t3 ≤ t4 → t4 ≤ t5 →
      t5 ≤ t1 + W → t6 < t5 + W →
      (isLoginRateLimited W 5 t6 (fiveFailures W k st0 t1 t2 t3 t4 t5) k).1 = true
      ∧ (loginStep W 5 t6 (fiveFailures W k st0 t1 t2 t3 t4 t5) k
          emailPresent passwordPresent user pwOk).1 = .rateLimited)
    ∧ (∀ (W M now t' : ℕ) (st : Limiter) (k : String) (u : UserRow),
      (isLoginRateLimited W M now st k).1 = false →
      u.status = "active" →
      (loginStep W M now st k true true (some u) true).1 = .success
      ∧ mget (loginStep W M now st k true true (some u) true).2 k = none
      ∧ mget (recordLoginFailure W M t'
          (loginStep W M now st k true true (some u) true).2 k) k =
            some ⟨1, t', 0⟩) := by
  constructor
  · intro W k st0 t1 t2 t3 t4 t5 t6 emailPresent passwordPresent user pwOk
      h0 h12 h23 h34 h45 h5w h6
    have hm := fiveFailures_entry W k st0 t1 t2 t3 t4 t5 h0 h12 h23 h34 h45 h5w
    have hlim : isLoginRateLimited W 5 t6 (fiveFailures W k st0 t1 t2 t3 t4 t5) k =
        (true, fiveFailures W k st0 t1 t2 t3 t4 t5) := by
      simp only [isLoginRateLimited, hm]
      rw [if_pos (by omega)]
    refine ⟨by rw [hlim], ?_⟩
    simp [loginStep, hlim]
  · intro W M now t' st k u hlim hstat
    rcases hI : isLoginRateLimited W M now st k with ⟨b, s2⟩
    rw [hI] at hlim
    simp only at hlim
    subst hlim
    have hrun : loginStep W M now st k true true (some u) true =
        (.success, resetLoginAttempts s2 k) := by
      simp only [loginStep, hI]
      rw [if_neg (by simp)]
      simp [hstat]
    refine ⟨by rw [hrun], ?_, ?_⟩
    · rw [hrun]
      exact mget_mdel_self _ k
    · rw [hrun]
      have hnone : mget (resetLoginAttempts s2 k) k = none := mget_mdel_self _ k
      simp only [recordLoginFailure, hnone]
      exact mget_mset_self _ k _

/-- **C5** witness: with the default 15-minute window, five failures at
times 0..4 lock out a 6th attempt at time 5 even with correct
credentials, and a successful login on a fresh limiter resets the key. -/
theorem login_rate_limit_lockout_witness :
    (isLoginRateLimited 900000 5 5
      (fiveFailures 900000 "ip|mail" [] 0 1 2 3 4) "ip|mail").1 = true
    ∧ (loginStep 900000 5 5 (fiveFailures 900000 "ip|mail" [] 0 1 2 3 4) "ip|mail"
        true true (some ⟨"active", false⟩) true).1 = .rateLimited
    ∧ (loginStep 900000 5 0 [] "ip|mail" true true
        (some ⟨"active", false⟩) true).1 = .success
    ∧ mget (loginStep 900000 5 0 [] "ip|mail" true true
        (some ⟨"active", false⟩) true).2 "ip|mail" = none
    ∧ mget (recordLoginFailure 900000 5 7
        (loginStep 900000 5 0 [] "ip|mail" true true
          (some ⟨"active", false⟩) true).2 "ip|mail") "ip|mail" =
        some ⟨1, 7, 0⟩ := by
  have ha := login_rate_limit_lockout.1 900000 "ip|mail" [] 0 1 2 3 4 5
    true true (some ⟨"active", false⟩) true rfl
    (by omega) (by omega) (by omega) (by omega) (by omega) (by omega)
  have hb := login_rate_limit_lockout.2 900000 5 0 7 [] "ip|mail"
    ⟨"active", false⟩ rfl rfl
  exact ⟨ha.1, ha.2, hb.1, hb.2.1, hb.2.2⟩

/-- **C6** (confirmed): a non-rate-limited login attempt that fails
because the email is unknown or the password wrong, and one that fails
because the account status is not `active` despite a correct password,
both produce the `invalid` outcome — the same HTTP status 401 and the
same generic message "Login fehlgeschlagen." — so the two causes are
indistinguishable from the response content. -/
theorem login_failure_indistinguishable (W M now : ℕ) (st : Limiter) (k : String)
    (user : Option UserRow) (pwOk : Bool) (u2 : UserRow)
    (hlim : (isLoginRateLimited W M now st k).1 = false)
    (hA : user = none ∨ pwOk = false)
    (hB : u2.status ≠ "active") :
    (loginStep W M now st k true true user pwOk).1 = .invalid
    ∧ (loginStep W M now st k true true (some u2) true).1 = .invalid
    ∧ (loginStep W M now st k true true user pwOk).1.httpStatus =
        (loginStep W M now st k true true (some u2) true).1.httpStatus
    ∧ (loginStep W M now st k true true user pwOk).1.message =
        (loginStep W M now st k true true (some u2) true).1.message
    ∧ LoginResult.invalid.httpStatus = 401
    ∧ LoginResult.invalid.message = "Login fehlgeschlagen." := by
  rcases hI : isLoginRateLimited W M now st k with ⟨b, s2⟩
  rw [hI] at hlim
  simp only at hlim
  subst hlim
  have hrA : (loginStep W M now st k true true user pwOk).1 = .invalid := by
    rcases hA with h | h
    · subst h
      simp only [loginStep, hI]
      rw [if_neg (by simp)]
      simp
    · subst h
      cases user with
      | none =>
        simp only [loginStep, hI]
        rw [if_neg (by simp)]
        simp
      | some u =>
        simp only [loginStep, hI]
        rw [if_neg (by simp)]
        simp
  have hrB : (loginStep W M now st k true true (some u2) true).1 = .invalid := by
    simp only [loginStep, hI]
    rw [if_neg (by simp)]
    simp [hB]
  exact ⟨hrA, hrB, by rw [hrA, hrB], by rw [hrA, hrB], rfl, rfl⟩

/-- **C6** witness: an unknown email and a locked account with a correct
password give the same 401 / "Login fehlgeschlagen." response. -/
theorem login_failure_indistinguishable_witness :
    (loginStep 900000 5 0 [] "ip|mail" true true none false).1 = .invalid
    ∧ (loginStep 900000 5 0 [] "ip|mail" true true
        (some ⟨"locked", false⟩) true).1 = .invalid := by
  have h := login_failure_indistinguishable 900000 5 0 [] "ip|mail" none false
    ⟨"locked", false⟩ rfl (Or.inl rfl) (by simp)
  exact ⟨h.1, h.2.1⟩

/-! ## Attachment download path containment (C9) -/

/-- Segment-level model of
`path.resolve(path.join(GRADE_ATTACHMENT_DIR, row.attachment_path))`
for an absolute, normalised root: segments of the stored path are
processed left to right — empty and `.` segments vanish, `..` pops one
segment (possibly climbing above the root), anything else is pushed. -/
def resolveUnder (root : List String) (segs : List String) : List String :=
  segs.foldl (fun acc seg =>
    if seg = "" ∨ seg = "." then acc
    else if seg = ".." then acc.dropLast
    else acc ++ [seg]) root

/-- `filePath.startsWith(baseDir + path.sep)` at segment level: the
resolved path extends the root by at least one segment. -/
def insideRoot (root resolved : List String) : Bool :=
  root.isPrefixOf resolved && decide (root.length < resolved.length)

/-- The columns of the grade row consulted by the download handler. -/
structure AttachmentRow where
  attachment_path : Option (List String)
  attachment_original_name : Option String
  deriving DecidableEq, Repr

/-- The observable outcome of `GET /returns/:gradeId/attachment`. -/
inductive AttachResp where
  | notFound
  | badId
  | badPath
  | stream (p : List String)
  deriving DecidableEq, Repr

/-- `GET /returns/:gradeId/attachment` (routes/student.js 451–490):
student context, then the id check, the row lookup, the containment
check of the resolved path against the storage root, the `stat` check,
and only then the download.  `contextOk` abstracts the student-profile
lookup, `gradeIdOk` the `Number(req.params.gradeId)` truthiness,
`statOk` the `fs.promises.stat(...).isFile()` outcome. -/
def downloadAttachment (root : List String) (contextOk gradeIdOk : Bool)
    (row : Option AttachmentRow) (statOk : List String → Bool) : AttachResp :=
  if ¬contextOk then .notFound
  else if ¬gradeIdOk then .badId
  else
    match row with
    | none => .notFound
    | some r =>
        match r.attachment_path with
        | none => .notFound
        | some p =>
            if ¬insideRoot root (resolveUnder root p) then .badPath
            else if ¬statOk (resolveUnder root p) then .notFound
            else .stream (resolveUnder root p)

/-- **C9** (confirmed): the handler streams only the resolution of the
stored path, and only when that resolution lies strictly inside the
storage root; whenever the stored path's resolution escapes the root,
no request outcome is a stream. -/
theorem attachment_path_containment (root : List String) (contextOk gradeIdOk : Bool)
    (row : Option AttachmentRow) (statOk : List String → Bool) :
    (∀ p, downloadAttachment root contextOk gradeIdOk row statOk = .stream p →
      insideRoot root p = true
      ∧ ∃ r stored, row = some r ∧ r.attachment_path = some stored
          ∧ p = resolveUnder root stored)
    ∧ (∀ r stored, row = some r → r.attachment_path = some stored →
        insideRoot root (resolveUnder root stored) = false →
        ∀ p, downloadAttachment root contextOk gradeIdOk row statOk ≠ .stream p) := by
  have h1 : ∀ p, downloadAttachment root contextOk gradeIdOk row statOk = .stream p →
      insideRoot root p = true
      ∧ ∃ r stored, row = some r ∧ r.attachment_path = some stored
          ∧ p = resolveUnder root stored := by
    intro p hp
    unfold downloadAttachment at hp
    split at hp
    · exact absurd hp (by simp)
    split at hp
    · exact absurd hp (by simp)
    split at hp
    · exact absurd hp (by simp)
    next r =>
      split at hp
      · exact absurd hp (by simp)
      next stored hpath =>
        split at hp
        · exact absurd hp (by simp)
        next hin =>
          split at hp
          · exact absurd hp (by simp)
          · cases hp
            exact ⟨by simpa using hin, r, stored, rfl, hpath, rfl⟩
  refine ⟨h1, ?_⟩
  intro r stored hr hpath hesc p hp
  obtain ⟨hin, r', stored', hrow, hpath', hpeq⟩ := h1 p hp
  rw [hr] at hrow
  injection hrow with hrr
  subst hrr
  rw [hpath] at hpath'
  injection hpath' with hss
  subst hss
  subst hpeq
  rw [hesc] at hin
  exact absurd hin (by simp)

/-- **C9** witness: a stored path `../../etc/passwd` resolves outside
the storage root and is never streamed. -/
theorem attachment_path_containment_witness :
    downloadAttachment ["uploads", "grade-attachments"] true true
      (some ⟨some ["..", "..", "etc", "passwd"], some "datei"⟩)
      (fun _ => true) ≠ .stream ["etc", "passwd"] :=
  (attachment_path_containment ["uploads", "grade-attachments"] true true
    (some ⟨some ["..", "..", "etc", "passwd"], some "datei"⟩) (fun _ => true)).2
    ⟨some ["..", "..", "etc", "passwd"], some "datei"⟩
    ["..", "..", "etc", "passwd"] rfl rfl (by decide) ["etc", "passwd"]

/-! ## Template statistics (`GET /class-statistics/:classId`, C8) -/

/-- A student row as used by the statistics route. -/
structure TStudent where
  id : ℕ
  name : String
  deriving DecidableEq, Repr

/-- A grade template (id and name are all the route consults). -/
structure Template where
  id : ℕ
  name : String
  deriving DecidableEq, Repr

/-- A row of `loadStudentGrades` as consulted by the statistics loop. -/
structure TGrade where
  is_special : Bool
  template_id : Option ℕ
  name : String
  grade : JsVal
  deriving DecidableEq, Repr

/-- `grade.template_id && Number(grade.template_id) === Number(template.id)`:
a recorded id `0` is falsy in JavaScript, hence treated as absent. -/
def matchesById (tpl : Template) (g : TGrade) : Bool :=
  match g.template_id with
  | some tid => decide (tid ≠ 0) && decide (tid = tpl.id)
  | none => false

/-- `!grade.template_id && grade.name === template.name`. -/
def matchesByName (tpl : Template) (g : TGrade) : Bool :=
  (match g.template_id with
   | some tid => decide (tid = 0)
   | none => true) && decide (g.name = tpl.name)

/-- The `templateGrades` collection loop: over students in insertion
order (`gradesByStudent` is keyed in `students` order and iterated with
`forEach`), each non-special grade matching the template by id — or by
name when no id is recorded — contributes `(value, studentName)` unless
its value coerces to `NaN`. -/
def collectTemplateGrades (tpl : Template) (data : List (TStudent × List TGrade)) :
    List (ℚ × String) :=
  data.flatMap (fun sg => sg.2.filterMap (fun g =>
    if g.is_special then none
    else if !(matchesById tpl g || matchesByName tpl g) then none
    else (toNumber g.grade).map (fun v => (v, sg.1.name))))

/-- The statistics record computed per template. -/
structure TemplateStats where
  graded_count : ℕ
  average : AvgResult
  best_grade : Option ℚ
  worst_grade : Option ℚ
  best_students : List String
  worst_students : List String
  deriving DecidableEq, Repr

/-- The per-template statistics of `GET /class-statistics/:classId`
(teacher router, lines 1064–1113): count, arithmetic mean rounded with
`toFixed(2)`, best (`Math.min`) and worst (`Math.max`) value, and the
names of the students tied at those values (empty names are dropped by
`.filter(Boolean)`). -/
def templateStats (tpl : Template) (data : List (TStudent × List TGrade)) :
    TemplateStats :=
  let tg := collectTemplateGrades tpl data
  let values := tg.map Prod.fst
  { graded_count := values.length
    average := if values.isEmpty then .null
      else .num (toFixed2 (values.sum / (values.length : ℚ)))
    best_grade := values.min?
    worst_grade := values.max?
    best_students := match values.min? with
      | none => []
      | some b => ((tg.filter (fun e => e.1 = b)).map Prod.snd).filter
          (fun n => n ≠ "")
    worst_students := match values.max? with
      | none => []
      | some w => ((tg.filter (fun e => e.1 = w)).map Prod.snd).filter
          (fun n => n ≠ "") }

theorem rat_min?_eq_some_iff {l : List ℚ} {b : ℚ} :
    l.min? = some b ↔ b ∈ l ∧ ∀ v ∈ l, b ≤ v := by
  haveI : Std.Antisymm ((· : ℚ) ≤ ·) := ⟨le_antisymm⟩
  exact List.min?_eq_some_iff (fun a => le_refl a) (fun a c => min_choice a c)
    (fun a c d => le_min_iff)

theorem rat_max?_eq_some_iff {l : List ℚ} {w : ℚ} :
    l.max? = some w ↔ w ∈ l ∧ ∀ v ∈ l, v ≤ w := by
  haveI : Std.Antisymm ((· : ℚ) ≤ ·) := ⟨le_antisymm⟩
  exact List.max?_eq_some_iff (fun a => le_refl a) (fun a c => max_choice a c)
    (fun a c d => max_le_iff)

theorem filter_ne_empty_of_all (l : List String)
    (h : ∀ n ∈ l, n ≠ "") : l.filter (fun n => n ≠ "") = l := by
  apply List.filter_eq_self.mpr
  intro n hn
  simpa using h n hn

/-- **C8** (confirmed, under the assumption that student names are
nonempty): the per-template statistics count exactly the collected
(non-special, template-matched, numeric) grades; the average is the
arithmetic mean rounded with `toFixed(2)`; the best/worst values are
the minimum/maximum of the collected values; the best/worst student
lists are exactly the names of the entries tied at those values; and an
empty match set yields null statistics and empty lists. -/
theorem templateStats_spec (tpl : Template) (data : List (TStudent × List TGrade))
    (hnm : ∀ sg ∈ data, sg.1.name ≠ "") :
    (templateStats tpl data).graded_count = (collectTemplateGrades tpl data).length
    ∧ (templateStats tpl data).average =
        (if collectTemplateGrades tpl data = [] then .null
         else .num (toFixed2 (((collectTemplateGrades tpl data).map Prod.fst).sum /
           ((collectTemplateGrades tpl data).length : ℚ))))
    ∧ (∀ b : ℚ, (templateStats tpl data).best_grade = some b ↔
        (b ∈ (collectTemplateGrades tpl data).map Prod.fst ∧
          ∀ v ∈ (collectTemplateGrades tpl data).map Prod.fst, b ≤ v))
    ∧ (∀ w : ℚ, (templateStats tpl data).worst_grade = some w ↔
        (w ∈ (collectTemplateGrades tpl data).map Prod.fst ∧
          ∀ v ∈ (collectTemplateGrades tpl data).map Prod.fst, v ≤ w))
    ∧ (∀ b : ℚ, (templateStats tpl data).best_grade = some b →
        (templateStats tpl data).best_students =
          ((collectTemplateGrades tpl data).filter (fun e => e.1 = b)).map Prod.snd)
    ∧ (∀ w : ℚ, (templateStats tpl data).worst_grade = some w →
        (templateStats tpl data).worst_students =
          ((collectTemplateGrades tpl data).filter (fun e => e.1 = w)).map Prod.snd)
    ∧ (collectTemplateGrades tpl data = [] →
        (templateStats tpl data).average = .null
        ∧ (templateStats tpl data).best_grade = none
        ∧ (templateStats tpl data).worst_grade = none
        ∧ (templateStats tpl data).best_students = []
        ∧ (templateStats tpl data).worst_students = [])
    ∧ (∀ (st : TStudent) (gs : List TGrade),
        collectTemplateGrades tpl [(st, gs)] =
          (gs.filter (fun g =>
            !g.is_special && (matchesById tpl g || matchesByName tpl g))).filterMap
            (fun g => (toNumber g.grade).map (fun v => (v, st.name)))) := by
  have hsnd : ∀ e ∈ collectTemplateGrades tpl data, e.2 ≠ "" := by
    intro e he
    simp only [collectTemplateGrades, List.mem_flatMap] at he
    obtain ⟨sg, hsg, hin⟩ := he
    obtain ⟨g, _, hg⟩ := List.mem_filterMap.mp hin
    have he2 : e.2 = sg.1.name := by
      by_cases h1 : g.is_special
      · simp [h1] at hg
      · by_cases h2 : (matchesById tpl g || matchesByName tpl g) = true
        · cases hv : toNumber g.grade with
          | none => simp [h1, h2, hv] at hg
          | some v =>
            simp only [h1, h2, hv, Bool.false_eq_true, if_false, Bool.not_true,
              Option.map_some'] at hg
            cases hg
            rfl
        · simp [h1, h2] at hg
    rw [he2]
    exact hnm sg hsg
  refine ⟨by simp [templateStats], ?_, ?_, ?_, ?_, ?_, ?_, ?_⟩
  · simp only [templateStats]
    by_cases h : collectTemplateGrades tpl data = []
    · rw [if_pos (by simp [h]), if_pos h]
    · rw [if_neg (by simp [h]), if_neg h]
      simp
  · intro b
    simp only [templateStats]
    exact rat_min?_eq_some_iff
  · intro w
    simp only [templateStats]
    exact rat_max?_eq_some_iff
  · intro b hb
    simp only [templateStats] at hb ⊢
    rw [hb]
    exact filter_ne_empty_of_all _ (by
      intro n hn
      obtain ⟨e, he, hne⟩ := List.mem_map.mp hn
      rw [← hne]
      exact hsnd e (List.mem_of_mem_filter he))
  · intro w hw
    simp only [templateStats] at hw ⊢
    rw [hw]
    exact filter_ne_empty_of_all _ (by
      intro n hn
      obtain ⟨e, he, hne⟩ := List.mem_map.mp hn
      rw [← hne]
      exact hsnd e (List.mem_of_mem_filter he))
  · intro h
    simp [templateStats, h]
  · intro st gs
    simp only [collectTemplateGrades, List.flatMap_cons, List.flatMap_nil,
      List.append_nil]
    induction gs with
    | nil => rfl
    | cons g rest ih =>
      by_cases h1 : g.is_special
      · simp only [List.filterMap_cons, List.filter_cons, h1, if_true,
          Bool.not_true, Bool.false_and, Bool.false_eq_true, if_false] at *
        exact ih
      · by_cases h2 : (matchesById tpl g || matchesByName tpl g) = true
        · simp only [List.filterMap_cons, List.filter_cons, h1, h2,
            Bool.false_eq_true, if_false, Bool.not_false, Bool.true_and, if_true,
            Bool.not_true] at *
          rw [ih]
        · have h2' : (matchesById tpl g || matchesByName tpl g) = false := by
            cases h : (matchesById tpl g || matchesByName tpl g)
            · rfl
            · exact absurd h h2
          simp only [List.filterMap_cons, List.filter_cons, h1, h2',
            Bool.false_eq_true, if_false, Bool.not_false, Bool.true_and,
            Bool.and_false] at *
          rw [if_pos (by simp [h2'])]
          exact ih

/-- **C8** witness: the spec's example — one template, three students
with grades 2, 2, 4 — gives average 2.67, best 2, worst 4, best
students Anna and Ben, worst student Clara. -/
theorem templateStats_spec_witness :
    (templateStats ⟨7, "Klausur"⟩
      [(⟨1, "Anna"⟩, [⟨false, some 7, "Klausur", .num 2⟩]),
       (⟨2, "Ben"⟩, [⟨false, some 7, "Klausur", .num 2⟩]),
       (⟨3, "Clara"⟩, [⟨false, some 7, "Klausur", .num 4⟩])]).average =
        .num (267/100)
    ∧ (templateStats ⟨7, "Klausur"⟩
      [(⟨1, "Anna"⟩, [⟨false, some 7, "Klausur", .num 2⟩]),
       (⟨2, "Ben"⟩, [⟨false, some 7, "Klausur", .num 2⟩]),
       (⟨3, "Clara"⟩, [⟨false, some 7, "Klausur", .num 4⟩])]).best_grade = some 2
    ∧ (templateStats ⟨7, "Klausur"⟩
      [(⟨1, "Anna"⟩, [⟨false, some 7, "Klausur", .num 2⟩]),
       (⟨2, "Ben"⟩, [⟨false, some 7, "Klausur", .num 2⟩]),
       (⟨3, "Clara"⟩, [⟨false, some 7, "Klausur", .num 4⟩])]).worst_grade = some 4
    ∧ (templateStats ⟨7, "Klausur"⟩
      [(⟨1, "Anna"⟩, [⟨false, some 7, "Klausur", .num 2⟩]),
       (⟨2, "Ben"⟩, [⟨false, some 7, "Klausur", .num 2⟩]),
       (⟨3, "Clara"⟩, [⟨false, some 7, "Klausur", .num 4⟩])]).best_students =
        ["Anna", "Ben"]
    ∧ (templateStats ⟨7, "Klausur"⟩
      [(⟨1, "Anna"⟩, [⟨false, some 7, "Klausur", .num 2⟩]),
       (⟨2, "Ben"⟩, [⟨false, some 7, "Klausur", .num 2⟩]),
       (⟨3, "Clara"⟩, [⟨false, some 7, "Klausur", .num 4⟩])]).worst_students =
        ["Clara"] := by
  have h := templateStats_spec ⟨7, "Klausur"⟩
    [(⟨1, "Anna"⟩, [⟨false, some 7, "Klausur", .num 2⟩]),
     (⟨2, "Ben"⟩, [⟨false, some 7, "Klausur", .num 2⟩]),
     (⟨3, "Clara"⟩, [⟨false, some 7, "Klausur", .num 4⟩])]
    (by decide)
  have hc : collectTemplateGrades ⟨7, "Klausur"⟩
      [(⟨1, "Anna"⟩, [⟨false, some 7, "Klausur", .num 2⟩]),
       (⟨2, "Ben"⟩, [⟨false, some 7, "Klausur", .num 2⟩]),
       (⟨3, "Clara"⟩, [⟨false, some 7, "Klausur", .num 4⟩])] =
      [((2 : ℚ), "Anna"), ((2 : ℚ), "Ben"), ((4 : ℚ), "Clara")] := by
    simp [collectTemplateGrades, matchesById, matchesByName, toNumber]
  have hbest : (templateStats ⟨7, "Klausur"⟩
      [(⟨1, "Anna"⟩, [⟨false, some 7, "Klausur", .num 2⟩]),
       (⟨2, "Ben"⟩, [⟨false, some 7, "Klausur", .num 2⟩]),
       (⟨3, "Clara"⟩, [⟨false, some 7, "Klausur", .num 4⟩])]).best_grade = some 2 := by
    refine (h.2.2.1 2).mpr ?_
    rw [hc]
    constructor
    · norm_num
    · intro v hv
      simp only [List.map_cons, List.map_nil, List.mem_cons,
        List.not_mem_nil, or_false] at hv
      rcases hv with rfl | rfl | rfl <;> norm_num
  have hworst : (templateStats ⟨7, "Klausur"⟩
      [(⟨1, "Anna"⟩, [⟨false, some 7, "Klausur", .num 2⟩]),
       (⟨2, "Ben"⟩, [⟨false, some 7, "Klausur", .num 2⟩]),
       (⟨3, "Clara"⟩, [⟨false, some 7, "Klausur", .num 4⟩])]).worst_grade = some 4 := by
    refine (h.2.2.2.1 4).mpr ?_
    rw [hc]
    constructor
    · norm_num
    · intro v hv
      simp only [List.map_cons, List.map_nil, List.mem_cons,
        List.not_mem_nil, or_false] at hv
      rcases hv with rfl | rfl | rfl <;> norm_num
  refine ⟨?_, hbest, hworst, ?_, ?_⟩
  · rw [h.2.1, hc]
    rw [if_neg (by simp)]
    norm_num [toFixed2_eq_intFloor]
  · rw [h.2.2.2.2.1 2 hbest, hc]
    norm_num
  · rw [h.2.2.2.2.2.1 4 hworst, hc]
    norm_num

/-! ## Minimal PDF builder (`sanitizePdfText`, `buildPdf`; C4, C10)

JavaScript `.length` counts UTF-16 code units; for the ASCII-only
strings produced here it coincides with the Lean character count
`String.length` and with the UTF-8 byte count `String.utf8ByteSize`
(the latter equality is proved, so character offsets are byte
offsets). -/

/-- Printable ASCII, the range kept by `/[^\x20-\x7E]/`. -/
def pdfPrintable (c : Char) : Bool :=
  decide (0x20 ≤ c.toNat) && decide (c.toNat ≤ 0x7E)

/-- `.replace(/\\/g, "\\\\")` as a per-character expansion. -/
def pdfEsc1 (c : Char) : List Char := if c = '\\' then ['\\', '\\'] else [c]

/-- `.replace(/\(/g, "\\(")`. -/
def pdfEsc2 (c : Char) : List Char := if c = '(' then ['\\', '('] else [c]

/-- `.replace(/\)/g, "\\)")`. -/
def pdfEsc3 (c : Char) : List Char := if c = ')' then ['\\', ')'] else [c]

/-- `.replace(/[^\x20-\x7E]/g, "?")`. -/
def pdfEsc4 (c : Char) : Char := if pdfPrintable c then c else '?'

/-- `sanitizePdfText` (routes/student.js 215–221): the four sequential
global replacements, each a left-to-right pass over the previous
result. -/
def sanitizePdfText (s : String) : String :=
  String.mk ((((s.data.flatMap pdfEsc1).flatMap pdfEsc2).flatMap pdfEsc3).map pdfEsc4)

/-- The `safeLines.forEach` loop of `buildPdf`: one `(line) Tj` per
line with a `T*` between consecutive lines. -/
def tjLines : List String → List String
  | [] => []
  | [l] => ["(" ++ l ++ ") Tj"]
  | l :: rest => ("(" ++ l ++ ") Tj") :: "T*" :: tjLines rest

/-- `contentLines.join("\n")`. -/
def joinNL : List String → String
  | [] => ""
  | [l] => l
  | l :: rest => l ++ "\n" ++ joinNL rest

/-- The content stream text of `buildPdf`. -/
def buildPdfContent (lines : List String) : String :=
  joinNL (["BT", "/F1 12 Tf", "14 TL", "72 760 Td"]
    ++ tjLines (lines.map sanitizePdfText) ++ ["ET"])

/-- `"%PDF-1.4\n"`. -/
def pdfHeader : String := "%PDF-1.4\n"

/-- The five objects of the document, in emission order (routes/
student.js 239–245). -/
def pdfObjects (content : String) : List String :=
  ["1 0 obj\n<< /Type /Catalog /Pages 2 0 R >>\nendobj\n",
   "2 0 obj\n<< /Type /Pages /Kids [3 0 R] /Count 1 >>\nendobj\n",
   "3 0 obj\n<< /Type /Page /Parent 2 0 R /MediaBox [0 0 612 792] /Contents 4 0 R /Resources << /Font << /F1 5 0 R >> >> >>\nendobj\n",
   "4 0 obj\n<< /Length " ++ Nat.repr content.length ++ " >>\nstream\n"
     ++ content ++ "\nendstream\nendobj\n",
   "5 0 obj\n<< /Type /Font /Subtype /Type1 /BaseFont /Helvetica >>\nendobj\n"]

/-- One iteration of the `objects.forEach` loop: record the current
byte offset, then append the object. -/
def emitStep (acc : String × List ℕ) (obj : String) : String × List ℕ :=
  (acc.1 ++ obj, acc.2 ++ [acc.1.length])

/-- The document prefix up to (excluding) the xref table, together with
the recorded offsets `[0, off₁, …, off₅]`. -/
def buildPdfBody (lines : List String) : String × List ℕ :=
  (pdfObjects (buildPdfContent lines)).foldl emitStep (pdfHeader, [0])

/-- The offsets array after the emission loop. -/
def buildPdfOffsets (lines : List String) : List ℕ := (buildPdfBody lines).2

/-- `xrefOffset`: the byte offset at which the xref table starts. -/
def buildPdfXrefOffset (lines : List String) : ℕ := (buildPdfBody lines).1.length

/-- `String(offset).padStart(10, "0")`. -/
def padStart10 (s : String) : String :=
  String.mk (List.replicate (10 - s.length) '0') ++ s

/-- The `offsets.slice(1).forEach` loop writing one xref entry per
object. -/
def xrefEntries (offsets : List ℕ) : String :=
  String.join ((offsets.drop 1).map
    (fun off => padStart10 (Nat.repr off) ++ " 00000 n \n"))

/-- Everything `buildPdf` appends after the objects: the xref table,
the trailer, the `startxref` pointer and the end-of-file marker. -/
def buildPdfTail (lines : List String) : String :=
  "xref\n0 " ++ Nat.repr ((pdfObjects (buildPdfContent lines)).length + 1)
    ++ "\n" ++ "0000000000 65535 f \n"
    ++ xrefEntries (buildPdfBody lines).2
    ++ "trailer\n<< /Size "
    ++ Nat.repr ((pdfObjects (buildPdfContent lines)).length + 1)
    ++ " /Root 1 0 R >>\nstartxref\n"
    ++ Nat.repr (buildPdfBody lines).1.length ++ "\n%%EOF\n"

/-- `buildPdf` (routes/student.js 223–265). -/
def buildPdf (lines : List String) : String :=
  (buildPdfBody lines).1 ++ buildPdfTail lines

/-- The `i`-th emitted object (0-based). -/
def pdfObj (lines : List String) (i : ℕ) : String :=
  (pdfObjects (buildPdfContent lines)).getD i ""

/-- `doc` carries the text `s` starting at character offset `off`. -/
def startsAt (doc : String) (off : ℕ) (s : String) : Prop :=
  (doc.data.drop off).take s.data.length = s.data

/-- A character the PDF document may contain: newline or printable
ASCII. -/
def pdfGoodChar (c : Char) : Bool := c = '\n' || pdfPrintable c

/-- Every character of `s` is newline or printable ASCII. -/
def goodString (s : String) : Prop := ∀ c ∈ s.data, pdfGoodChar c = true

theorem goodString_of_all {s : String} (h : s.data.all pdfGoodChar = true) :
    goodString s := by
  intro c hc
  exact List.all_eq_true.mp h c hc

theorem goodString_append {a b : String} (ha : goodString a) (hb : goodString b) :
    goodString (a ++ b) := by
  intro c hc
  rw [String.data_append] at hc
  rcases List.mem_append.mp hc with h | h
  · exact ha c h
  · exact hb c h

theorem goodString_of_printable {s : String}
    (h : ∀ c ∈ s.data, pdfPrintable c = true) : goodString s := by
  intro c hc
  simp [pdfGoodChar, h c hc]

theorem sanitize_printable (s : String) :
    ∀ c ∈ (sanitizePdfText s).data, pdfPrintable c = true := by
  intro c hc
  simp only [sanitizePdfText] at hc
  obtain ⟨d, _, rfl⟩ := List.mem_map.mp hc
  simp only [pdfEsc4]
  by_cases h : pdfPrintable d = true
  · rw [if_pos h]
    exact h
  · rw [if_neg h]
    decide

theorem digitChar_printable (m : ℕ) : pdfPrintable (Nat.digitChar m) = true := by
  by_cases h0 : m = 0
  · subst h0; decide
  by_cases h1 : m = 1
  · subst h1; decide
  by_cases h2 : m = 2
  · subst h2; decide
  by_cases h3 : m = 3
  · subst h3; decide
  by_cases h4 : m = 4
  · subst h4; decide
  by_cases h5 : m = 5
  · subst h5; decide
  by_cases h6 : m = 6
  · subst h6; decide
  by_cases h7 : m = 7
  · subst h7; decide
  by_cases h8 : m = 8
  · subst h8; decide
  by_cases h9 : m = 9
  · subst h9; decide
  by_cases h10 : m = 10
  · subst h10; decide
  by_cases h11 : m = 11
  · subst h11; decide
  by_cases h12 : m = 12
  · subst h12; decide
  by_cases h13 : m = 13
  · subst h13; decide
  by_cases h14 : m = 14
  · subst h14; decide
  by_cases h15 : m = 15
  · subst h15; decide
  simp only [Nat.digitChar, h0, h1, h2, h3, h4, h5, h6, h7, h8, h9, h10, h11, h12, h13, h14, h15, if_false]
  decide

theorem toDigitsCore_printable (f : ℕ) : ∀ (n : ℕ) (l : List Char),
    (∀ c ∈ l, pdfPrintable c = true) →
    ∀ c ∈ Nat.toDigitsCore 10 f n l, pdfPrintable c = true := by
  induction f with
  | zero =>
    intro n l hl
    simpa [Nat.toDigitsCore] using hl
  | succ f ih =>
    intro n l hl
    simp only [Nat.toDigitsCore]
    split
    · intro c hc
      rcases List.mem_cons.mp hc with rfl | h
      · exact digitChar_printable _
      · exact hl c h
    · refine ih _ _ ?_
      intro c hc
      rcases List.mem_cons.mp hc with rfl | h
      · exact digitChar_printable _
      · exact hl c h

theorem natRepr_printable (n : ℕ) : ∀ c ∈ (Nat.repr n).data, pdfPrintable c = true := by
  intro c hc
  have hd : (Nat.repr n).data = Nat.toDigitsCore 10 (n + 1) n [] := rfl
  rw [hd] at hc
  exact toDigitsCore_printable _ _ _ (by simp) c hc

theorem natRepr_good (n : ℕ) : goodString (Nat.repr n) :=
  goodString_of_printable (natRepr_printable n)

theorem sanitize_good (s : String) : goodString (sanitizePdfText s) :=
  goodString_of_printable (sanitize_printable s)

theorem joinNL_good (ps : List String) (h : ∀ p ∈ ps, goodString p) :
    goodString (joinNL ps) := by
  induction ps with
  | nil => intro c hc; simp [joinNL] at hc
  | cons p rest ih =>
    cases rest with
    | nil => simpa [joinNL] using h p (by simp)
    | cons q r =>
      show goodString (p ++ "\n" ++ joinNL (q :: r))
      exact goodString_append
        (goodString_append (h p (by simp)) (goodString_of_all (by decide)))
        (ih (fun x hx => h x (by simp [hx])))

theorem tjLines_good (ls : List String) (h : ∀ l ∈ ls, goodString l) :
    ∀ p ∈ tjLines ls, goodString p := by
  induction ls with
  | nil => intro p hp; simp [tjLines] at hp
  | cons l rest ih =>
    cases rest with
    | nil =>
      intro p hp
      simp only [tjLines, List.mem_singleton] at hp
      subst hp
      exact goodString_append
        (goodString_append (goodString_of_all (by decide)) (h l (by simp)))
        (goodString_of_all (by decide))
    | cons q r =>
      intro p hp
      rcases List.mem_cons.mp hp with rfl | hp'
      · exact goodString_append
          (goodString_append (goodString_of_all (by decide)) (h l (by simp)))
          (goodString_of_all (by decide))
      · rcases List.mem_cons.mp hp' with rfl | hp''
        · exact goodString_of_all (by decide)
        · exact ih (fun x hx => h x (by simp [hx])) p hp''

theorem buildPdfContent_good (lines : List String) :
    goodString (buildPdfContent lines) := by
  apply joinNL_good
  intro p hp
  rcases List.mem_append.mp hp with hp1 | hp2
  · rcases List.mem_append.mp hp1 with hp3 | hp4
    · simp only [List.mem_cons, List.not_mem_nil, or_false] at hp3
      rcases hp3 with rfl | rfl | rfl | rfl <;> exact goodString_of_all (by decide)
    · exact tjLines_good _ (by
        intro l hl
        obtain ⟨t, _, rfl⟩ := List.mem_map.mp hl
        exact sanitize_good t) p hp4
  · simp only [List.mem_cons, List.not_mem_nil, or_false] at hp2
    subst hp2
    exact goodString_of_all (by decide)

theorem goodString_empty : goodString "" := by
  intro c hc
  rw [show ("" : String).data = [] from rfl] at hc
  exact absurd hc (List.not_mem_nil c)

theorem goodString_foldl_append (ps : List String) :
    ∀ acc : String, goodString acc → (∀ p ∈ ps, goodString p) →
    goodString (ps.foldl (fun r s => r ++ s) acc) := by
  induction ps with
  | nil =>
    intro acc hacc _
    simpa using hacc
  | cons p rest ih =>
    intro acc hacc h
    rw [List.foldl_cons]
    exact ih _ (goodString_append hacc (h p (by simp)))
      (fun x hx => h x (by simp [hx]))

theorem goodString_join (ps : List String) (h : ∀ p ∈ ps, goodString p) :
    goodString (String.join ps) :=
  goodString_foldl_append ps "" goodString_empty h

theorem pdfObjects_good (lines : List String) :
    ∀ o ∈ pdfObjects (buildPdfContent lines), goodString o := by
  intro o ho
  simp only [pdfObjects, List.mem_cons, List.not_mem_nil, or_false] at ho
  rcases ho with rfl | rfl | rfl | rfl | rfl
  · exact goodString_of_all (by decide)
  · exact goodString_of_all (by decide)
  · exact goodString_of_all (by decide)
  · exact goodString_append (goodString_append (goodString_append
      (goodString_append (goodString_of_all (by decide)) (natRepr_good _))
      (goodString_of_all (by decide))) (buildPdfContent_good lines))
      (goodString_of_all (by decide))
  · exact goodString_of_all (by decide)

theorem emit_fold_good (objs : List String) :
    ∀ acc : String × List ℕ, goodString acc.1 → (∀ o ∈ objs, goodString o) →
    goodString (objs.foldl emitStep acc).1 := by
  induction objs with
  | nil =>
    intro acc hacc _
    simpa using hacc
  | cons o rest ih =>
    intro acc hacc h
    rw [List.foldl_cons]
    exact ih _ (goodString_append hacc (h o (by simp)))
      (fun x hx => h x (by simp [hx]))

theorem buildPdfBody_good (lines : List String) :
    goodString (buildPdfBody lines).1 :=
  emit_fold_good _ _ (goodString_of_all (by decide)) (pdfObjects_good lines)

theorem padStart10_good (n : ℕ) : goodString (padStart10 (Nat.repr n)) := by
  apply goodString_append _ (natRepr_good n)
  intro c hc
  rw [show (String.mk (List.replicate (10 - (Nat.repr n).length) '0')).data =
    List.replicate (10 - (Nat.repr n).length) '0' from rfl] at hc
  rw [List.eq_of_mem_replicate hc]
  decide

theorem xrefEntries_good (offsets : List ℕ) : goodString (xrefEntries offsets) := by
  apply goodString_join
  intro p hp
  obtain ⟨off, _, rfl⟩ := List.mem_map.mp hp
  exact goodString_append (padStart10_good off) (goodString_of_all (by decide))

theorem buildPdfTail_good (lines : List String) :
    goodString (buildPdfTail lines) := by
  unfold buildPdfTail
  exact goodString_append (goodString_append (goodString_append
    (goodString_append (goodString_append (goodString_append
      (goodString_append (goodString_append (goodString_append
        (goodString_of_all (by decide)) (natRepr_good _))
        (goodString_of_all (by decide))) (goodString_of_all (by decide)))
      (xrefEntries_good _)) (goodString_of_all (by decide))) (natRepr_good _))
    (goodString_of_all (by decide))) (natRepr_good _))
    (goodString_of_all (by decide))

theorem buildPdf_good (lines : List String) : goodString (buildPdf lines) :=
  goodString_append (buildPdfBody_good lines) (buildPdfTail_good lines)

theorem utf8Size_eq_one_of_lt {c : Char} (h : c.toNat < 128) : c.utf8Size = 1 := by
  unfold Char.utf8Size
  rw [if_pos]
  rw [UInt32.le_def, BitVec.le_def]
  exact Nat.lt_succ_iff.mp h

theorem utf8Size_one_of_good {c : Char} (h : pdfGoodChar c = true) :
    c.utf8Size = 1 := by
  apply utf8Size_eq_one_of_lt
  have h' : c = '\n' ∨ pdfPrintable c = true := by simpa [pdfGoodChar] using h
  rcases h' with h1 | h1
  · rw [h1]
    decide
  · have h2 : 32 ≤ c.toNat ∧ c.toNat ≤ 126 := by simpa [pdfPrintable] using h1
    omega

theorem utf8ByteSize_go_eq_length (l : List Char)
    (h : ∀ c ∈ l, pdfGoodChar c = true) :
    String.utf8ByteSize.go l = l.length := by
  induction l with
  | nil => rfl
  | cons c cs ih =>
    show String.utf8ByteSize.go cs + c.utf8Size = cs.length + 1
    rw [utf8Size_one_of_good (h c (by simp)),
      ih (fun x hx => h x (by simp [hx]))]

theorem utf8ByteSize_eq_length {s : String} (h : goodString s) :
    s.utf8ByteSize = s.length := by
  cases s with
  | mk l => exact utf8ByteSize_go_eq_length l h

/-- **C10** (confirmed): every character of the produced document is a
newline or printable ASCII (the sanitizer maps everything else to `?`),
hence the document's UTF-8 byte length equals its character count, and
the `/Length` value declared in the content-stream object is exactly
the byte length of the stream content. -/
theorem buildPdf_ascii_bytes (lines : List String) :
    (buildPdf lines).data.all pdfGoodChar = true
    ∧ (buildPdf lines).utf8ByteSize = (buildPdf lines).length
    ∧ (∀ s : String, (sanitizePdfText s).data.all pdfPrintable = true)
    ∧ (buildPdfContent lines).utf8ByteSize = (buildPdfContent lines).length
    ∧ (pdfObjects (buildPdfContent lines)).getD 3 "" =
        "4 0 obj\n<< /Length " ++ Nat.repr ((buildPdfContent lines).utf8ByteSize)
          ++ " >>\nstream\n" ++ buildPdfContent lines ++ "\nendstream\nendobj\n" := by
  have hcontent : (buildPdfContent lines).utf8ByteSize =
      (buildPdfContent lines).length :=
    utf8ByteSize_eq_length (buildPdfContent_good lines)
  refine ⟨?_, utf8ByteSize_eq_length (buildPdf_good lines), ?_, hcontent, ?_⟩
  · exact List.all_eq_true.mpr (buildPdf_good lines)
  · intro s
    exact List.all_eq_true.mpr (sanitize_printable s)
  · rw [hcontent]
    rfl

theorem startsAt_split (pre mid post : String) :
    startsAt (pre ++ (mid ++ post)) pre.length mid := by
  unfold startsAt
  rw [String.data_append, String.data_append]
  rw [show pre.length = pre.data.length from rfl]
  rw [List.drop_left, List.take_left]

theorem buildPdfOffsets_eq (lines : List String) :
    buildPdfOffsets lines = [0, pdfHeader.length,
      (pdfHeader ++ pdfObj lines 0).length,
      ((pdfHeader ++ pdfObj lines 0) ++ pdfObj lines 1).length,
      (((pdfHeader ++ pdfObj lines 0) ++ pdfObj lines 1) ++ pdfObj lines 2).length,
      ((((pdfHeader ++ pdfObj lines 0) ++ pdfObj lines 1) ++ pdfObj lines 2)
        ++ pdfObj lines 3).length] := rfl

theorem buildPdfBody_fst_eq (lines : List String) :
    (buildPdfBody lines).1 =
      ((((pdfHeader ++ pdfObj lines 0) ++ pdfObj lines 1) ++ pdfObj lines 2)
        ++ pdfObj lines 3) ++ pdfObj lines 4 := rfl

theorem buildPdf_decomp (lines : List String) :
    buildPdf lines = pdfHeader ++ (pdfObj lines 0 ++ (pdfObj lines 1 ++
      (pdfObj lines 2 ++ (pdfObj lines 3 ++ (pdfObj lines 4
        ++ buildPdfTail lines))))) := by
  show (buildPdfBody lines).1 ++ buildPdfTail lines = _
  rw [buildPdfBody_fst_eq]
  simp [String.append_assoc]

/-- **C4** (confirmed): for every input line list, the cross-reference
offsets recorded by the emission loop point at the exact start of each
numbered object in the emitted document, the `startxref` value points at
the start of the `xref` table, and — the document being ASCII-only —
these character offsets are byte offsets (`utf8ByteSize` equals the
character count). -/
theorem buildPdf_xref_offsets (lines : List String) :
    (buildPdfOffsets lines).getD 0 0 = 0
    ∧ startsAt (buildPdf lines) ((buildPdfOffsets lines).getD 1 0) (pdfObj lines 0)
    ∧ startsAt (buildPdf lines) ((buildPdfOffsets lines).getD 2 0) (pdfObj lines 1)
    ∧ startsAt (buildPdf lines) ((buildPdfOffsets lines).getD 3 0) (pdfObj lines 2)
    ∧ startsAt (buildPdf lines) ((buildPdfOffsets lines).getD 4 0) (pdfObj lines 3)
    ∧ startsAt (buildPdf lines) ((buildPdfOffsets lines).getD 5 0) (pdfObj lines 4)
    ∧ (buildPdfOffsets lines).length = (pdfObjects (buildPdfContent lines)).length + 1
    ∧ startsAt (buildPdf lines) (buildPdfXrefOffset lines) "xref"
    ∧ (buildPdf lines).utf8ByteSize = (buildPdf lines).length := by
  refine ⟨rfl, ?_, ?_, ?_, ?_, ?_, rfl, ?_, utf8ByteSize_eq_length (buildPdf_good lines)⟩
  · have hr : buildPdf lines = pdfHeader ++ (pdfObj lines 0 ++
        (pdfObj lines 1 ++ (pdfObj lines 2 ++ (pdfObj lines 3 ++
          (pdfObj lines 4 ++ buildPdfTail lines))))) := buildPdf_decomp lines
    rw [buildPdfOffsets_eq]
    show startsAt (buildPdf lines) pdfHeader.length (pdfObj lines 0)
    rw [hr]
    exact startsAt_split _ _ _
  · have hr : buildPdf lines = (pdfHeader ++ pdfObj lines 0) ++ (pdfObj lines 1 ++
        (pdfObj lines 2 ++ (pdfObj lines 3 ++ (pdfObj lines 4
          ++ buildPdfTail lines)))) := by
      rw [buildPdf_decomp]
      simp [String.append_assoc]
    rw [buildPdfOffsets_eq]
    show startsAt (buildPdf lines) (pdfHeader ++ pdfObj lines 0).length
      (pdfObj lines 1)
    rw [hr]
    exact startsAt_split _ _ _
  · have hr : buildPdf lines = ((pdfHeader ++ pdfObj lines 0) ++ pdfObj lines 1)
        ++ (pdfObj lines 2 ++ (pdfObj lines 3 ++ (pdfObj lines 4
          ++ buildPdfTail lines))) := by
      rw [buildPdf_decomp]
      simp [String.append_assoc]
    rw [buildPdfOffsets_eq]
    show startsAt (buildPdf lines)
      ((pdfHeader ++ pdfObj lines 0) ++ pdfObj lines 1).length (pdfObj lines 2)
    rw [hr]
    exact startsAt_split _ _ _
  · have hr : buildPdf lines = (((pdfHeader ++ pdfObj lines 0) ++ pdfObj lines 1)
        ++ pdfObj lines 2) ++ (pdfObj lines 3 ++ (pdfObj lines 4
          ++ buildPdfTail lines)) := by
      rw [buildPdf_decomp]
      simp [String.append_assoc]
    rw [buildPdfOffsets_eq]
    show startsAt (buildPdf lines)
      (((pdfHeader ++ pdfObj lines 0) ++ pdfObj lines 1) ++ pdfObj lines 2).length
      (pdfObj lines 3)
    rw [hr]
    exact startsAt_split _ _ _
  · have hr : buildPdf lines = ((((pdfHeader ++ pdfObj lines 0) ++ pdfObj lines 1)
        ++ pdfObj lines 2) ++ pdfObj lines 3) ++ (pdfObj lines 4
          ++ buildPdfTail lines) := by
      rw [buildPdf_decomp]
      simp [String.append_assoc]
    rw [buildPdfOffsets_eq]
    show startsAt (buildPdf lines)
      ((((pdfHeader ++ pdfObj lines 0) ++ pdfObj lines 1) ++ pdfObj lines 2)
        ++ pdfObj lines 3).length (pdfObj lines 4)
    rw [hr]
    exact startsAt_split _ _ _
  · show startsAt (buildPdf lines) ((buildPdfBody lines).1.length) "xref"
    unfold startsAt
    rw [show buildPdf lines = (buildPdfBody lines).1 ++ buildPdfTail lines from rfl,
      String.data_append,
      show (buildPdfBody lines).1.length = (buildPdfBody lines).1.data.length from rfl,
      List.drop_left]
    rfl

end Noten
